import Mathlib

/-!
Verification development for the stats-iplaycornhole indexing-and-aggregation
pipeline.  The Python source is shallowly embedded: each pure computation of
the source becomes an executable Lean definition, stateful database code
becomes explicit state passing over list-modelled tables, and nullable
columns / JSON fields become Option values.  Python truthiness of integers
(None and 0 are falsy) is modelled explicitly wherever the source relies on
it.
-/

namespace Cornhole

/-! ## Shared helpers: Python dict as an association list, stable sorts -/

/-- Lookup in a Python dict modelled as an association list (first binding
wins; a dict holds at most one binding per key). -/
def dictGet {α β : Type} [BEq α] (m : List (α × β)) (k : α) : Option β :=
  (m.find? (fun e => e.1 == k)).map (·.2)

/-- Python dict assignment: replace the binding in place if the key exists,
otherwise append a new binding (dict insertion order). -/
def dictSet {α β : Type} [BEq α] (m : List (α × β)) (k : α) (v : β) : List (α × β) :=
  match m with
  | [] => [(k, v)]
  | (k₁, v₁) :: rest => if k₁ == k then (k₁, v) :: rest else (k₁, v₁) :: dictSet rest k v

/-- Keep the first occurrence of each element, dropping later duplicates
(models iteration order of a dict built with membership guards; CPython set
order over small ints is likewise modelled as first-occurrence order). -/
def dedupFirstAux {α : Type} [BEq α] (seen : List α) : List α → List α
  | [] => []
  | x :: xs => if seen.contains x then dedupFirstAux seen xs else x :: dedupFirstAux (x :: seen) xs

def dedupFirst {α : Type} [BEq α] (l : List α) : List α := dedupFirstAux [] l

/-- Stable insertion: x is placed before the first element y with geq x y.
With geq modelling a non-strict comparison this reproduces the stability of
the Python sort. -/
def insertOrd {α : Type} (geq : α → α → Bool) (x : α) : List α → List α
  | [] => [x]
  | y :: ys => if geq x y then x :: y :: ys else y :: insertOrd geq x ys

/-- Stable sort (Python list.sort with a key): elements with equal keys keep
their original relative order. -/
def sortOrd {α : Type} (geq : α → α → Bool) (l : List α) : List α :=
  l.foldr (insertOrd geq) []

/-- Python truthiness of a nullable integer column: None and 0 are falsy. -/
def truthyInt : Option Int → Bool
  | none => false
  | some v => v != 0

/-! ## C10: singles win/loss aggregation
(stats_calculator.calculate_bracket_stats lines 327-399 and
calculate_event_aggregated_stats lines 808-882, singles branch; both use the
identical per-game win/loss rule). -/

/-- One stored EventGame row, restricted to the columns the singles win/loss
rule reads (database.EventGame; nullable integer columns become Option). -/
structure EventGameRec where
  player1_id : Option Nat
  player2_id : Option Nat
  player1_points : Option Int
  player2_points : Option Int
deriving Repr, DecidableEq

/-- A running wins/losses tally for one player. -/
structure WL where
  wins : Nat
  losses : Nat
deriving Repr, DecidableEq

def wl0 : WL := ⟨0, 0⟩

def bumpWin (w : WL) : WL := ⟨w.wins + 1, w.losses⟩

def bumpLoss (w : WL) : WL := ⟨w.wins, w.losses + 1⟩

def updateWL (m : Nat → WL) (p : Nat) (f : WL → WL) : Nat → WL :=
  fun q => if q = p then f (m p) else m q

/-- One side of the singles branch: the enclosing block runs only when the
player id is truthy, and the win/loss credit only when both point totals are
truthy; a strict majority is a win, anything else (including an exact tie)
is a loss. -/
def creditSide (m : Nat → WL) (pid : Option Nat) (own opp : Option Int) : Nat → WL :=
  match pid with
  | none => m
  | some p =>
    if p == 0 then m
    else if truthyInt own && truthyInt opp then
      if own.getD 0 > opp.getD 0 then updateWL m p bumpWin
      else updateWL m p bumpLoss
    else m

/-- Per-game singles update: player1 block then player2 block, exactly as in
the source. -/
def singlesGameStep (m : Nat → WL) (g : EventGameRec) : Nat → WL :=
  creditSide (creditSide m g.player1_id g.player1_points g.player2_points)
    g.player2_id g.player2_points g.player1_points

/-- Fold of the singles branch over all games of the group: the wins/losses
part of the player_stats accumulation. -/
def singlesWL (games : List EventGameRec) : Nat → WL :=
  games.foldl singlesGameStep (fun _ => wl0)

/-- The exact condition under which one side of a game credits player p with
a win in the source. -/
def sideWin (pid : Option Nat) (own opp : Option Int) (p : Nat) : Bool :=
  pid == some p && p != 0 && truthyInt own && truthyInt opp && own.getD 0 > opp.getD 0

/-- The exact condition under which one side of a game credits player p with
a loss in the source (both totals truthy, no strict majority). -/
def sideLoss (pid : Option Nat) (own opp : Option Int) (p : Nat) : Bool :=
  pid == some p && p != 0 && truthyInt own && truthyInt opp && !(own.getD 0 > opp.getD 0)

/-! ## C7: match/game fetch classification (fetcher.fetch_match_stats lines
229-256; acl_cache_indexer.index_match_stats has the same classification). -/

/-- A decoded match-stats response body; only the status marker drives the
classification. -/
structure MatchBody where
  status : String
  payload : Nat
deriving Repr, DecidableEq

/-- One attempt at the HTTP GET: either a response with a status code, or a
non-HTTP failure (timeout, connection error, body that is not JSON), which
in the source is swallowed by the generic exception handler. -/
inductive HttpAttempt where
  | response (code : Nat) (body : MatchBody)
  | failed
deriving Repr, DecidableEq

/-- fetch_match_stats over a stream of would-be attempts; the source issues
exactly one GET, so only attempts 0 is ever consumed.  Except.error models
the HTTPStatusError that raise_for_status propagates to the caller (only
reachable for non-4xx error codes). -/
def fetch_match_stats (attempts : Nat → HttpAttempt) : Except Nat (Option MatchBody) :=
  match attempts 0 with
  | .failed => .ok none
  | .response code body =>
    if 400 ≤ code ∧ code < 500 then .ok none
    else if 400 ≤ code then .error code
    else if body.status = "ERROR" ∨ body.status = "error" then .ok none
    else .ok (some body)

/-! ## C2: hash-gated aggregated-stats cache
(stats_calculator.store_aggregated_stats lines 1106-1150 and
get_aggregated_stats lines 1153-1182). -/

/-- One row of the event_games table, restricted to the columns the cache
hash reads: the surrogate primary key id (unique) and the owning event. -/
structure EventGameRow where
  id : Nat
  event_id : Nat
deriving Repr, DecidableEq

/-- Ascending sort of the selected ids (the order_by in the source query). -/
def sortAsc (l : List Nat) : List Nat := sortOrd (fun a b => a ≤ b) l

/-- select EventGame.id where event_id in event_ids order by EventGame.id -/
def gameIdsFor (games : List EventGameRow) (event_ids : List Nat) : List Nat :=
  sortAsc ((games.filter (fun g => event_ids.contains g.event_id)).map (·.id))

/-- The source stores hashlib.md5 of the json dump of the stringified sorted
id list.  The dump is injective on id lists and md5 is treated as
collision-free, so the digest is modelled by the sorted id list itself. -/
def games_hash (ids : List Nat) : List Nat := ids

/-- One row of event_aggregated_stats (database.EventAggregatedStats),
with the stored player_stats payload kept generic in α. -/
structure AggEntry (α : Type) where
  group_key : String
  group_type : String
  event_ids : List Nat
  player_stats : α
  total_players : Nat
  total_games : Nat
  games_hash : List Nat
deriving Repr, DecidableEq

/-- The stats_data dict passed to store_aggregated_stats and the dict
returned by get_aggregated_stats (payload fields only). -/
structure StatsData (α : Type) where
  player_stats : α
  total_players : Nat
  total_games : Nat
deriving Repr, DecidableEq

/-- store_aggregated_stats: recompute the games hash from the live game-id
set, then update the row with this group_key in place if it exists (the
source leaves group_type and event_ids of an existing row untouched),
otherwise insert a new row. -/
def store_aggregated_stats {α : Type} (group_key group_type : String) (event_ids : List Nat)
    (stats_data : StatsData α) (games : List EventGameRow) (table : List (AggEntry α)) :
    List (AggEntry α) :=
  let gh := games_hash (gameIdsFor games event_ids)
  if (table.find? (fun e => e.group_key == group_key)).isSome then
    table.map (fun e =>
      if e.group_key == group_key then
        { e with player_stats := stats_data.player_stats,
                 total_players := stats_data.total_players,
                 total_games := stats_data.total_games,
                 games_hash := gh }
      else e)
  else
    table ++ [{ group_key := group_key, group_type := group_type, event_ids := event_ids,
                player_stats := stats_data.player_stats,
                total_players := stats_data.total_players,
                total_games := stats_data.total_games, games_hash := gh }]

/-- get_aggregated_stats: miss when no row exists for the group key; when a
row exists, recompute the hash of the live sorted game-id set of the stored
event_ids and treat the row as a miss unless it matches the stored hash. -/
def get_aggregated_stats {α : Type} (group_key : String) (table : List (AggEntry α))
    (games : List EventGameRow) : Option (StatsData α) :=
  match table.find? (fun e => e.group_key == group_key) with
  | none => none
  | some st =>
    if games_hash (gameIdsFor games st.event_ids) = st.games_hash then
      some ⟨st.player_stats, st.total_players, st.total_games⟩
    else
      none

/-! ## C9 and C3: bracket game discovery and the per-event completeness
counters (game_indexer.discover_all_games_from_bracket lines 313-366,
discover_and_index_event_games_with_status lines 381-521, and the matching
update in discover_and_index_event_games lines 584-608). -/

/-- One entry of bracketDetails.  bracketmatchid is none when the raw field
is missing, falsy, or fails int conversion; the source additionally treats a
parsed 0 as falsy.  gameResults is [] when the key is missing or falsy. -/
structure BracketDetail where
  bracketmatchid : Option Int
  gameResults : List Nat
deriving Repr, DecidableEq

/-- The bracket payload for one event (bracketDetails list). -/
structure BracketData where
  bracketDetails : List BracketDetail
deriving Repr, DecidableEq

/-- A discovered (match_id, game_id) pair. -/
structure GameRef where
  match_id : Int
  game_id : Nat
deriving Repr, DecidableEq

/-- The discovery loop over bracketDetails.  A match id is recorded in
seen_matches as soon as it first passes the id checks, before the
gameResults check, so a later duplicate entry of the same id is never
reconsidered. -/
def discoverLoop : List BracketDetail → List Int → List GameRef → List GameRef
  | [], _, games => games
  | d :: rest, seen, games =>
    match d.bracketmatchid with
    | none => discoverLoop rest seen games
    | some mid =>
      if mid = 0 then discoverLoop rest seen games
      else if seen.contains mid then discoverLoop rest seen games
      else if d.gameResults.isEmpty then discoverLoop rest (mid :: seen) games
      else discoverLoop rest (mid :: seen) (games ++ [⟨mid, 1⟩])

/-- discover_all_games_from_bracket, pure core over a present bracket
payload. -/
def discover_all_games_from_bracket (b : BracketData) : List GameRef :=
  discoverLoop b.bracketDetails [] []

/-- Modelled from the claim wording of C9 for comparison: the set of match
ids some bracket entry of which carries non-empty game results. -/
def claimedDiscoverIds (b : BracketData) : List Int :=
  dedupFirst ((b.bracketDetails.filter (fun d => !d.gameResults.isEmpty)).filterMap
    (fun d => match d.bracketmatchid with
      | some mid => if mid = 0 then none else some mid
      | none => none))

/-- Whether the first bracket entry carrying id mid has non-empty game
results (the amended discovery characterization). -/
def firstEntryHasResults (mid : Int) : List BracketDetail → Bool
  | [] => false
  | d :: rest =>
    if d.bracketmatchid == some mid then !d.gameResults.isEmpty
    else firstEntryHasResults mid rest

/-- The completeness columns of one events row (database.Event). -/
structure EventCounters where
  games_total_count : Nat
  games_indexed_count : Nat
  games_fully_indexed : Bool
deriving Repr, DecidableEq

/-- The completion update at the end of
discover_and_index_event_games_with_status: games_total_count is
total_games or indexed_count under Python truthiness, games_indexed_count is
the full stored-game count, and games_fully_indexed is
(total_games is not None and indexed_count >= total_games). -/
def updateEventCompletion (total_games : Option Nat) (indexed_count : Nat)
    (e : EventCounters) : EventCounters :=
  { e with
    games_total_count :=
      match total_games with
      | some t => if t ≠ 0 then t else indexed_count
      | none => indexed_count,
    games_indexed_count := indexed_count,
    games_fully_indexed :=
      match total_games with
      | some t => indexed_count ≥ t
      | none => false }

/-- End-of-run state of discover_and_index_event_games_with_status: the
bracket-derived total is len(games_from_bracket) if the discovery list is
non-empty else None, and indexed_count counts every stored game row of the
event. -/
def discoverAndIndexFinalCounters (bracket : BracketData) (dbGames : List EventGameRow)
    (event_id : Nat) (e : EventCounters) : EventCounters :=
  let games_from_bracket := discover_all_games_from_bracket bracket
  let total_games := if games_from_bracket.isEmpty then none else some games_from_bracket.length
  let indexed_count := (dbGames.filter (fun g => g.event_id == event_id)).length
  updateEventCompletion total_games indexed_count e

/-! ## C4: standings-over-stats precedence when building PlayerEventStats
(event_indexer.parse_player_event_stats lines 134-163 and the standings
merge inside index_event lines 300-332). -/

/-- One record of the per-player event-stats feed, after the multi-key
fallback lookups: the feed carries its own ranking (PPR-based), wins,
losses and winPct, which the source deliberately never copies. -/
structure EventStatsPayload where
  playerID : Option Nat
  ranking : Option Nat
  feedWins : Option Int
  feedLosses : Option Int
  feedWinPct : Option ℚ
  ptsPerRnd : Option ℚ
  totalGames : Option Nat
deriving Repr, DecidableEq

/-- The standings_dict value built in index_event from one standings entry:
rank via fldEventRank (with fallbacks), wins and losses straight from the
standings payload. -/
structure StandingInfo where
  rank : Option Nat
  wins : Option Int
  losses : Option Int
deriving Repr, DecidableEq

/-- The PlayerEventStats row under construction (database.PlayerEventStats,
restricted to the fields this claim is about plus two passthrough fields). -/
structure PlayerEventStatsRec where
  event_id : Nat
  player_id : Option Nat
  rank : Option Nat
  wins : Option Int
  losses : Option Int
  win_pct : Option ℚ
  pts_per_rnd : Option ℚ
  total_games : Option Nat
deriving Repr, DecidableEq

/-- parse_player_event_stats: rank, wins, losses and win_pct are set to None
here (never read from stats_data); performance fields pass through. -/
def parse_player_event_stats (s : EventStatsPayload) (event_id : Nat) : PlayerEventStatsRec :=
  { event_id := event_id
    player_id := s.playerID
    rank := none
    wins := none
    losses := none
    win_pct := none
    pts_per_rnd := s.ptsPerRnd
    total_games := s.totalGames }

/-- The standings override block of index_event: rank, wins and losses are
taken from the standings entry when present; win_pct is recomputed as
(wins / (wins + losses)) * 100 when both standings wins and losses are
present and their sum is positive. -/
def applyStandings (r : PlayerEventStatsRec) (si : StandingInfo) : PlayerEventStatsRec :=
  let r1 := if si.rank.isSome then { r with rank := si.rank } else r
  let r2 := if si.wins.isSome then { r1 with wins := si.wins } else r1
  if si.losses.isSome then
    let r3 := { r2 with losses := si.losses }
    match r3.wins, r3.losses with
    | some w, some l =>
      if w + l > 0 then { r3 with win_pct := some (((w : ℚ) / ((w : ℚ) + (l : ℚ))) * 100) }
      else r3
    | _, _ => r3
  else r2

/-- index_event merge for one player: the standings override runs only when
the player appears in standings_dict. -/
def mergeStandings (r : PlayerEventStatsRec) (si : Option StandingInfo) : PlayerEventStatsRec :=
  match si with
  | none => r
  | some i => applyStandings r i

/-! ## C5: index_event idempotence and the force_reindex path
(event_indexer.index_event lines 237-273; database.Event declares event_id
unique at database.py line 91). -/

/-- The stored tables index_event writes, keyed by event id; child rows are
(event_id, payload id) pairs. -/
structure EventsDb where
  events : List Nat
  playerStats : List (Nat × Nat)
  standings : List (Nat × Nat)
  matchups : List (Nat × Nat)
deriving Repr, DecidableEq

/-- The fetched payloads of one event (player ids of the stats feed, player
ids of the standings feed, matchup row ids from the bracket). -/
structure IndexPayload where
  statsPlayers : List Nat
  standingPlayers : List Nat
  matchupRows : List Nat
deriving Repr, DecidableEq

/-- index_event as a transition on the stored tables.  Without force an
already-indexed event id short-circuits.  With force the prior
PlayerEventStats rows are deleted, but the Event row is then freshly
db.add-ed rather than upserted: for an already-present event id the INSERT
violates the unique event_id constraint at flush, the exception handler
rolls the transaction back (undoing the deletes) and returns False. -/
def index_event (eid : Nat) (payload : IndexPayload) (db : EventsDb) (force : Bool) :
    Bool × EventsDb :=
  if db.events.contains eid && !force then (true, db)
  else
    let working :=
      if force then { db with playerStats := db.playerStats.filter (fun r => r.1 != eid) }
      else db
    if db.events.contains eid then (false, db)
    else
      (true,
        { working with
          events := working.events ++ [eid]
          playerStats := working.playerStats ++ payload.statsPlayers.map (fun p => (eid, p))
          standings := working.standings ++ payload.standingPlayers.map (fun p => (eid, p))
          matchups := working.matchups ++ payload.matchupRows.map (fun m => (eid, m)) })

/-! ## C6: response cache dedup (acl_cache_indexer.get_cached_response lines
26-40, cache_response lines 43-88, and the fetch-through-cache pattern of
index_event_info lines 248-293). -/

/-- A raw upstream JSON body: its status marker plus a payload stand-in. -/
structure RespBody where
  status : String
  payload : Nat
deriving Repr, DecidableEq

/-- One row of acl_api_cache (database.ACLAPICache), restricted to the
fields the dedup logic reads; url_hash is unique. -/
structure CacheRow where
  endpoint_type : String
  url : String
  url_hash : String
  response_json : RespBody
  http_status : Option Nat
deriving Repr, DecidableEq

/-- The sha256 url digest, modelled by the url itself (sha256 is injective
on the urls in play and treated as collision-free). -/
def get_url_hash (url : String) : String := url

/-- get_cached_response: lookup by url hash. -/
def get_cached_response (url : String) (cache : List CacheRow) : Option RespBody :=
  (cache.find? (fun e => e.url_hash == get_url_hash url)).map (·.response_json)

/-- cache_response: update the row with this url hash in place when one
exists, otherwise insert a new row. -/
def cache_response (endpoint_type url : String) (response_json : RespBody)
    (http_status : Option Nat) (cache : List CacheRow) : List CacheRow :=
  if (cache.find? (fun e => e.url_hash == get_url_hash url)).isSome then
    cache.map (fun e =>
      if e.url_hash == get_url_hash url then
        { e with response_json := response_json, http_status := http_status }
      else e)
  else
    cache ++ [{ endpoint_type := endpoint_type, url := url, url_hash := get_url_hash url,
                response_json := response_json, http_status := http_status }]

/-- What the network returns when the fetch path runs: 404, or a 2xx
response with a JSON body (other codes raise and leave the cache alone). -/
inductive HttpOutcome where
  | notFound
  | success (body : RespBody)
deriving Repr, DecidableEq

/-- index_event_info: cache first (no network on a hit, whatever the cached
status marker); on a miss, 404 returns None without caching, and a 2xx body
is cached before the status marker is inspected.  The third component
records whether a network call was made. -/
def index_event_info (net : HttpOutcome) (url : String) (cache : List CacheRow) :
    Option Nat × List CacheRow × Bool :=
  match get_cached_response url cache with
  | some body => (if body.status = "OK" then some body.payload else none, cache, false)
  | none =>
    match net with
    | .notFound => (none, cache, true)
    | .success body =>
      let cache1 := cache_response "event_info" url body (some 200) cache
      (if body.status = "OK" then some body.payload else none, cache1, true)

/-- Number of cache rows stored under the hash of this url. -/
def entriesFor (url : String) (cache : List CacheRow) : Nat :=
  cache.countP (fun e => e.url_hash == get_url_hash url)

/-! ## C8: doubles partner inference
(stats_calculator.extract_doubles_partners lines 19-111). -/

/-- One entry of event_match_details in a raw game payload; playerid is none
when the field is missing or fails int conversion, and a stored 0 is falsy
for the source. -/
structure PlayerSlot where
  playerid : Option Int
deriving Repr, DecidableEq

/-- get_player_id: int(val) if val else None, so missing and 0 both give
None. -/
def get_player_id (pd : PlayerSlot) : Option Int :=
  match pd.playerid with
  | some v => if v = 0 then none else some v
  | none => none

/-- tuple(sorted([a, b])). -/
def sortedPair (a b : Int) : Int × Int := if a ≤ b then (a, b) else (b, a)

/-- The partner pairs contributed by one game payload: none when raw_data is
missing or event_match_details has fewer than 4 players; otherwise slots 0-1
are team 1 and slots 2-3 are team 2, and a team contributes its sorted pair
when both extracted ids are truthy. -/
def gamePairs (g : Option (List PlayerSlot)) : List (Int × Int) :=
  match g with
  | none => []
  | some details =>
    match details with
    | d0 :: d1 :: d2 :: d3 :: _ =>
      let pairs1 :=
        match get_player_id d0, get_player_id d1 with
        | some a, some b => [sortedPair a b]
        | _, _ => []
      let pairs2 :=
        match get_player_id d2, get_player_id d3 with
        | some a, some b => [sortedPair a b]
        | _, _ => []
      pairs1 ++ pairs2
    | _ => []

/-- all_partner_pairs accumulated over every game of the event. -/
def allPartnerPairs (games : List (Option (List PlayerSlot))) : List (Int × Int) :=
  games.foldl (fun acc g => acc ++ gamePairs g) []

/-- collections.Counter items in first-encounter order. -/
def counterItems (l : List (Int × Int)) : List ((Int × Int) × Nat) :=
  (dedupFirst l).map (fun x => (x, l.count x))

/-- Counter.most_common: stable sort by count descending, ties keeping
first-encounter order. -/
def mostCommon (l : List (Int × Int)) : List ((Int × Int) × Nat) :=
  sortOrd (fun a b => b.2 ≤ a.2) (counterItems l)

/-- The distinct final_rank values of the standings rows in encounter order
(the source query orders by final_rank; the grouping then iterates dict
keys in first-encounter order).  final_rank is nullable. -/
def rankKeys (st : List (Int × Option Int)) : List (Option Int) :=
  dedupFirst (st.map (·.2))

/-- The player ids standing at one rank value, in standings order. -/
def groupPlayers (st : List (Int × Option Int)) (r : Option Int) : List Int :=
  (st.filter (fun s => s.2 == r)).map (·.1)

/-- The primary method: a rank group with exactly two players makes those
two players partners of each other; any other group size contributes
nothing. -/
def partnersFromStandings (st : List (Int × Option Int)) : List (Int × Int) :=
  (rankKeys st).foldl
    (fun m r =>
      match groupPlayers st r with
      | [a, b] => dictSet (dictSet m a b) b a
      | _ => m)
    []

/-- The guarded insertion of one counted raw-data pair: a pair is adopted
only when at least one member is unassigned and neither member is already
assigned a different partner. -/
def addPairStep (m : List (Int × Int)) (pc : (Int × Int) × Nat) : List (Int × Int) :=
  if pc.2 ≥ 1 then
    let p1 := pc.1.1
    let p2 := pc.1.2
    if !(dictGet m p1).isSome || !(dictGet m p2).isSome then
      if !(dictGet m p1).isSome || dictGet m p1 == some p2 then
        if !(dictGet m p2).isSome || dictGet m p2 == some p1 then
          dictSet (dictSet m p1 p2) p2 p1
        else m
      else m
    else m
  else m

/-- extract_doubles_partners: standings pairs first, then the counted
raw-data pairs in most_common order under the consistency guards. -/
def extract_doubles_partners (st : List (Int × Option Int))
    (games : List (Option (List PlayerSlot))) : List (Int × Int) :=
  (mostCommon (allPartnerPairs games)).foldl addPairStep (partnersFromStandings st)

/-- A partner map is symmetric: whenever a is mapped to b, b is mapped back
to a (this also rules out any player holding two different partners, since
a dict holds one binding per key). -/
def SymmMap (m : List (Int × Int)) : Prop :=
  ∀ a b : Int, dictGet m a = some b → dictGet m b = some a

/-! ## C1: cross-bracket overall ranking
(stats_calculator.calculate_event_aggregated_stats lines 972-1080). -/

/-- An overall rank value as the source produces it: a plain integer, a
tied rank (the T- prefix), the special two-bracket runner-up label, or the
N/A default for players the ranking never reached. -/
inductive RankVal where
  | num (n : Nat)
  | tie (n : Nat)
  | tieSecondInBracket
  | na
deriving Repr, DecidableEq

/-- The per-player aggregate entering the ranking pass, with the fields the
pass reads: totals for the ppr and win_pct tie-breakers, and the
bracket_ranks dict (event id to final rank). -/
structure PlayerAgg where
  pid : Nat
  total_points : Int
  total_rounds : Nat
  wins : Nat
  games_played : Nat
  bracket_ranks : List (Nat × Nat)
deriving Repr, DecidableEq

/-- ppr as stored for tie-breaking: total_points / total_rounds when rounds
are positive, else 0. -/
def pprOf (p : PlayerAgg) : ℚ :=
  if p.total_rounds > 0 then (p.total_points : ℚ) / (p.total_rounds : ℚ) else 0

/-- win_pct as stored for tie-breaking: wins / games_played when games were
played, else 0. -/
def winPctOf (p : PlayerAgg) : ℚ :=
  if p.games_played > 0 then (p.wins : ℚ) / (p.games_played : ℚ) else 0

/-- player_stats[pid].get with default 0.0, for the sort keys. -/
def pprOfPid (ps : List PlayerAgg) (pid : Nat) : ℚ :=
  match ps.find? (fun p => p.pid == pid) with
  | some p => pprOf p
  | none => 0

def winPctOfPid (ps : List PlayerAgg) (pid : Nat) : ℚ :=
  match ps.find? (fun p => p.pid == pid) with
  | some p => winPctOf p
  | none => 0

/-- The raw appearances of players at one bracket rank, in player iteration
order, one appearance per (event, rank) entry. -/
def rawRankOccurrences (ps : List PlayerAgg) (r : Nat) : List Nat :=
  ps.foldl (fun acc p => acc ++ (p.bracket_ranks.filter (fun er => er.2 == r)).map (fun _ => p.pid)) []

/-- bracket_winners after list(set(...)) dedup and the stable PPR-descending
sort. -/
def bracketWinnersSorted (ps : List PlayerAgg) : List Nat :=
  sortOrd (fun a b => decide (pprOfPid ps b ≤ pprOfPid ps a))
    (dedupFirst (rawRankOccurrences ps 1))

/-- The distinct bracket ranks present, in encounter order (the keys of
players_by_rank). -/
def allRanks (ps : List PlayerAgg) : List Nat :=
  dedupFirst (ps.foldl (fun acc p => acc ++ p.bracket_ranks.map (·.2)) [])

/-- Running state of the ranking pass: the next overall rank slot, the
overall_ranks dict and the assigned_players set (as an append list). -/
structure RankAccum where
  overall_rank : Nat
  ranks : List (Nat × RankVal)
  assigned : List Nat
deriving Repr, DecidableEq

/-- The sort key of the rank-3-and-beyond block: (-ppr, -win_pct) ascending,
modelled as descending lexicographic comparison. -/
def pprWinPctGe (ps : List PlayerAgg) (a b : Nat) : Bool :=
  decide (pprOfPid ps b < pprOfPid ps a) ||
    (decide (pprOfPid ps a = pprOfPid ps b) && decide (winPctOfPid ps b ≤ winPctOfPid ps a))

/-- The bracket-winner stage of the ranking pass: 1st overall to the head of
the PPR-sorted winner list, 2nd to the second element, every remaining
winner tied at the next slot. -/
def winnersStage (winners : List Nat) : RankAccum :=
  let s0 : RankAccum := ⟨1, [], []⟩
  let s1 : RankAccum :=
    match winners with
    | [] => s0
    | w1 :: _ => ⟨2, [(w1, RankVal.num 1)], [w1]⟩
  let s2 : RankAccum :=
    match winners with
    | _ :: w2 :: _ => ⟨3, s1.ranks ++ [(w2, RankVal.num 2)], s1.assigned ++ [w2]⟩
    | _ => s1
  let remWinners := winners.filter (fun pid => !(s2.assigned.contains pid))
  if remWinners.isEmpty then s2
  else
    ⟨s2.overall_rank + remWinners.length,
     s2.ranks ++ remWinners.map (fun pid => (pid, RankVal.tie s2.overall_rank)),
     s2.assigned ++ remWinners⟩

/-- The bracket runner-up stage (labelled T-2nd in bracket when exactly two
brackets are grouped, tied at the running slot otherwise). -/
def rank2Stage (ps : List PlayerAgg) (num_brackets : Nat) (s : RankAccum) : RankAccum :=
  let rank2 := (dedupFirst (rawRankOccurrences ps 2)).filter (fun pid => !(s.assigned.contains pid))
  if rank2.isEmpty then s
  else
    ⟨s.overall_rank + rank2.length,
     s.ranks ++ rank2.map (fun pid =>
       (pid, if num_brackets == 2 then RankVal.tieSecondInBracket else RankVal.tie s.overall_rank)),
     s.assigned ++ rank2⟩

/-- One step of the deeper-rank loop (players_by_rank for ranks 3, 4, ...):
the unassigned players at bracket rank r, tie-broken by PPR then win_pct,
are tied at the running slot when more than one, or given the plain slot
when exactly one. -/
def higherRankStep (ps : List PlayerAgg) (s : RankAccum) (r : Nat) : RankAccum :=
  let rp0 := (dedupFirst (rawRankOccurrences ps r)).filter (fun pid => !(s.assigned.contains pid))
  if rp0.isEmpty then s
  else
    let rp := sortOrd (pprWinPctGe ps) rp0
    if rp.length > 1 then
      ⟨s.overall_rank + rp.length,
       s.ranks ++ rp.map (fun pid => (pid, RankVal.tie s.overall_rank)),
       s.assigned ++ rp⟩
    else
      match rp with
      | [pid] => ⟨s.overall_rank + 1, s.ranks ++ [(pid, RankVal.num s.overall_rank)], s.assigned ++ [pid]⟩
      | _ => s

/-- The loop over the deeper bracket ranks in ascending order. -/
def higherStage (ps : List PlayerAgg) (s : RankAccum) : RankAccum :=
  ((sortOrd (fun a b => a ≤ b) (allRanks ps)).filter (fun r => ¬(r ≤ 2))).foldl
    (higherRankStep ps) s

/-- The final stage: every player still unassigned is tied at the running
slot, in PPR order. -/
def remainingStage (ps : List PlayerAgg) (s : RankAccum) : RankAccum :=
  let remaining := (ps.map (·.pid)).filter (fun pid => !(s.assigned.contains pid))
  if remaining.isEmpty then s
  else
    ⟨s.overall_rank + remaining.length,
     s.ranks ++ (sortOrd (fun a b => decide (pprOfPid ps b ≤ pprOfPid ps a)) remaining).map
       (fun pid => (pid, RankVal.tie s.overall_rank)),
     s.assigned⟩

/-- The overall ranking pass: 1st and 2nd overall to the two best bracket
winners by PPR, the remaining bracket winners tied at the next slot, then
the bracket runners-up (labelled T-2nd in bracket when exactly two brackets
are grouped), then each deeper bracket rank in ascending order tie-broken
by PPR then win_pct, then every player still unassigned, tied, in PPR
order. -/
def overallRanks (ps : List PlayerAgg) (num_brackets : Nat) : List (Nat × RankVal) :=
  (remainingStage ps
    (higherStage ps
      (rank2Stage ps num_brackets
        (winnersStage (bracketWinnersSorted ps))))).ranks

/-- overall_ranks.get(player_id, the N/A default). -/
def overallRankOf (ps : List PlayerAgg) (num_brackets : Nat) (pid : Nat) : RankVal :=
  match (overallRanks ps num_brackets).find? (fun e => e.1 == pid) with
  | some e => e.2
  | none => RankVal.na

/-- The synthetic 4-bracket singles group of the claim: players 1..4 are the
four distinct bracket winners (final rank 1 in events 101..104), each with
one round so that the stored ppr equals the given point total. -/
def syntheticWinners (q1 q2 q3 q4 : Int) : List PlayerAgg :=
  [⟨1, q1, 1, 0, 0, [(101, 1)]⟩, ⟨2, q2, 1, 0, 0, [(102, 1)]⟩,
   ⟨3, q3, 1, 0, 0, [(103, 1)]⟩, ⟨4, q4, 1, 0, 0, [(104, 1)]⟩]

/-! ## Lemmas and claim theorems -/

theorem creditSide_wins_eq (m : Nat → WL) (pid : Option Nat) (own opp : Option Int) (p : Nat) :
    (creditSide m pid own opp p).wins = (m p).wins + (if sideWin pid own opp p then 1 else 0) := by
  rcases pid with _ | q
  · simp [creditSide, sideWin]
  · by_cases hq : q = 0
    · subst hq
      by_cases hp : p = 0
      · subst hp; simp [creditSide, sideWin]
      · have hp0 : ¬((0 : Nat) = p) := fun h => hp h.symm
        simp [creditSide, sideWin, hp0]
    · by_cases hp : p = q
      · subst hp
        by_cases h1 : truthyInt own = true
        · by_cases h2 : truthyInt opp = true
          · by_cases hgt : own.getD 0 > opp.getD 0
            · simp [creditSide, sideWin, updateWL, bumpWin, hq, h1, h2, hgt]
            · simp [creditSide, sideWin, updateWL, bumpLoss, hq, h1, h2, hgt]
          · simp [creditSide, sideWin, hq, h1, h2]
        · simp [creditSide, sideWin, hq, h1]
      · have hqp : ¬(q = p) := fun h => hp h.symm
        simp only [creditSide, hq, if_neg, beq_iff_eq]
        split_ifs <;> simp_all [updateWL, sideWin]

theorem creditSide_losses_eq (m : Nat → WL) (pid : Option Nat) (own opp : Option Int) (p : Nat) :
    (creditSide m pid own opp p).losses = (m p).losses + (if sideLoss pid own opp p then 1 else 0) := by
  rcases pid with _ | q
  · simp [creditSide, sideLoss]
  · by_cases hq : q = 0
    · subst hq
      by_cases hp : p = 0
      · subst hp; simp [creditSide, sideLoss]
      · have hp0 : ¬((0 : Nat) = p) := fun h => hp h.symm
        simp [creditSide, sideLoss, hp0]
    · by_cases hp : p = q
      · subst hp
        by_cases h1 : truthyInt own = true
        · by_cases h2 : truthyInt opp = true
          · by_cases hgt : own.getD 0 > opp.getD 0
            · simp [creditSide, sideLoss, updateWL, bumpWin, hq, h1, h2, hgt]
            · simp [creditSide, sideLoss, updateWL, bumpLoss, hq, h1, h2, hgt]
          · simp [creditSide, sideLoss, hq, h1, h2]
        · simp [creditSide, sideLoss, hq, h1]
      · have hqp : ¬(q = p) := fun h => hp h.symm
        simp only [creditSide, hq, if_neg, beq_iff_eq]
        split_ifs <;> simp_all [updateWL, sideLoss]

theorem singlesWL_foldl_wins (games : List EventGameRec) (m : Nat → WL) (p : Nat) :
    ((games.foldl singlesGameStep m) p).wins =
      (m p).wins
      + games.countP (fun g => sideWin g.player1_id g.player1_points g.player2_points p)
      + games.countP (fun g => sideWin g.player2_id g.player2_points g.player1_points p) := by
  induction games generalizing m with
  | nil => simp
  | cons g gs ih =>
    simp only [List.foldl_cons, List.countP_cons, ih]
    have h1 := creditSide_wins_eq (creditSide m g.player1_id g.player1_points g.player2_points)
      g.player2_id g.player2_points g.player1_points p
    have h2 := creditSide_wins_eq m g.player1_id g.player1_points g.player2_points p
    simp only [singlesGameStep, h1, h2]
    omega

theorem singlesWL_foldl_losses (games : List EventGameRec) (m : Nat → WL) (p : Nat) :
    ((games.foldl singlesGameStep m) p).losses =
      (m p).losses
      + games.countP (fun g => sideLoss g.player1_id g.player1_points g.player2_points p)
      + games.countP (fun g => sideLoss g.player2_id g.player2_points g.player1_points p) := by
  induction games generalizing m with
  | nil => simp
  | cons g gs ih =>
    simp only [List.foldl_cons, List.countP_cons, ih]
    have h1 := creditSide_losses_eq (creditSide m g.player1_id g.player1_points g.player2_points)
      g.player2_id g.player2_points g.player1_points p
    have h2 := creditSide_losses_eq m g.player1_id g.player1_points g.player2_points p
    simp only [singlesGameStep, h1, h2]
    omega

/-- C10: in singles aggregation a game feeds a player's win or loss count
only when both stored point totals are non-null and non-zero (sideWin and
sideLoss both require truthyInt of both totals); with both totals truthy the
player whose points strictly exceed the opponent is credited one win and in
every other case, an exact tie included, one loss, so a tied game adds a
loss for both players and a game with a null or zero total on either side
adds to neither count.  The wins and losses of the aggregation are exactly
the counts of the games satisfying those side conditions. -/
theorem C10_singles_win_loss_rule (games : List EventGameRec) (p : Nat) :
    (singlesWL games p).wins =
      games.countP (fun g => sideWin g.player1_id g.player1_points g.player2_points p)
      + games.countP (fun g => sideWin g.player2_id g.player2_points g.player1_points p)
    ∧ (singlesWL games p).losses =
      games.countP (fun g => sideLoss g.player1_id g.player1_points g.player2_points p)
      + games.countP (fun g => sideLoss g.player2_id g.player2_points g.player1_points p) := by
  refine ⟨?_, ?_⟩
  · have := singlesWL_foldl_wins games (fun _ => wl0) p
    simpa [singlesWL, wl0] using this
  · have := singlesWL_foldl_losses games (fun _ => wl0) p
    simpa [singlesWL, wl0] using this

/-- C7: for the match/game fetch, every 4xx response (404 included) and
every response body carrying the ERROR or error status marker is classified
as the resource being absent (the function returns None); the only failures
surfaced to the caller are non-4xx statuses (in fact 5xx); and the fetch is
never retried: the result depends only on the single first attempt. -/
theorem C7_fetch_classification (attempts : Nat → HttpAttempt) :
    (∀ code body, attempts 0 = .response code body → 400 ≤ code → code < 500 →
        fetch_match_stats attempts = .ok none)
    ∧ (∀ code body, attempts 0 = .response code body → code < 400 →
        (body.status = "ERROR" ∨ body.status = "error") →
        fetch_match_stats attempts = .ok none)
    ∧ (∀ e, fetch_match_stats attempts = .error e → 500 ≤ e)
    ∧ (∀ attempts2 : Nat → HttpAttempt, attempts2 0 = attempts 0 →
        fetch_match_stats attempts2 = fetch_match_stats attempts) := by
  refine ⟨?_, ?_, ?_, ?_⟩
  · intro code body h h4 h5
    simp only [fetch_match_stats, h]
    rw [if_pos ⟨h4, h5⟩]
  · intro code body h hlt hstat
    simp only [fetch_match_stats, h]
    rw [if_neg (by omega), if_neg (by omega), if_pos hstat]
  · intro e he
    cases h0 : attempts 0 with
    | failed => simp [fetch_match_stats, h0] at he
    | response code body =>
      simp only [fetch_match_stats, h0] at he
      by_cases h4 : 400 ≤ code ∧ code < 500
      · rw [if_pos h4] at he; exact absurd he (by simp)
      · rw [if_neg h4] at he
        by_cases h400 : 400 ≤ code
        · rw [if_pos h400] at he
          have : code = e := by simpa using he
          omega
        · rw [if_neg h400] at he
          by_cases hs : body.status = "ERROR" ∨ body.status = "error"
          · rw [if_pos hs] at he; exact absurd he (by simp)
          · rw [if_neg hs] at he; exact absurd he (by simp)
  · intro attempts2 h
    simp only [fetch_match_stats, h]

/-- C7 witness: a 404 at a concrete attempt stream is classified as absent. -/
theorem C7_fetch_classification_witness :
    ((fun _ : Nat => HttpAttempt.response 404 ⟨"OK", 7⟩) 0 = HttpAttempt.response 404 ⟨"OK", 7⟩
      ∧ 400 ≤ 404 ∧ 404 < 500)
    ∧ fetch_match_stats (fun _ => HttpAttempt.response 404 ⟨"OK", 7⟩) = .ok none :=
  ⟨⟨rfl, by omega, by omega⟩,
    (C7_fetch_classification (fun _ => HttpAttempt.response 404 ⟨"OK", 7⟩)).1 404 ⟨"OK", 7⟩
      rfl (by omega) (by omega)⟩

theorem insertOrd_perm {α : Type} (geq : α → α → Bool) (x : α) (l : List α) :
    (insertOrd geq x l).Perm (x :: l) := by
  induction l with
  | nil => simp [insertOrd]
  | cons y ys ih =>
    simp only [insertOrd]
    split_ifs
    · exact List.Perm.refl _
    · exact (ih.cons y).trans (List.Perm.swap x y ys)

theorem sortOrd_perm {α : Type} (geq : α → α → Bool) (l : List α) :
    (sortOrd geq l).Perm l := by
  induction l with
  | nil => simp [sortOrd]
  | cons x xs ih =>
    simp only [sortOrd, List.foldr_cons]
    exact (insertOrd_perm geq x _).trans (ih.cons x)

theorem mem_gameIdsFor (games : List EventGameRow) (eids : List Nat) (a : Nat) :
    a ∈ gameIdsFor games eids ↔ ∃ g, g ∈ games ∧ g.id = a ∧ g.event_id ∈ eids := by
  unfold gameIdsFor sortAsc
  rw [(sortOrd_perm _ _).mem_iff]
  simp only [List.mem_map, List.mem_filter, List.elem_iff]
  constructor
  · rintro ⟨g, ⟨hg, hev⟩, rfl⟩
    exact ⟨g, hg, rfl, hev⟩
  · rintro ⟨g, hg, rfl, hev⟩
    exact ⟨g, ⟨hg, hev⟩, rfl⟩

/-- C2: a freshly stored aggregated-stats entry is returned by
get_aggregated_stats exactly when the recomputed hash of the live sorted
game-id set of its event ids equals the stored hash; with the game set
unchanged the cached value comes back unchanged, and adding one game of the
group (a fresh row id) or removing one changes the game-id set, so the read
misses and forces recomputation. -/
theorem C2_hash_gated_cache {α : Type} (gk gt : String) (eids : List Nat) (sd : StatsData α)
    (games0 : List EventGameRow) (t0 : List (AggEntry α))
    (hkey : t0.find? (fun e => e.group_key == gk) = none) :
    (∀ games1, get_aggregated_stats gk (store_aggregated_stats gk gt eids sd games0 t0) games1
        = if gameIdsFor games1 eids = gameIdsFor games0 eids then some sd else none)
    ∧ get_aggregated_stats gk (store_aggregated_stats gk gt eids sd games0 t0) games0 = some sd
    ∧ (∀ g : EventGameRow, g.event_id ∈ eids → (∀ g0 ∈ games0, g0.id ≠ g.id) →
        gameIdsFor (games0 ++ [g]) eids ≠ gameIdsFor games0 eids)
    ∧ (∀ l1 (g : EventGameRow) l2, games0 = l1 ++ g :: l2 → g.event_id ∈ eids →
        (games0.map (·.id)).Nodup →
        gameIdsFor (l1 ++ l2) eids ≠ gameIdsFor games0 eids) := by
  have hstore : store_aggregated_stats gk gt eids sd games0 t0
      = t0 ++ [{ group_key := gk, group_type := gt, event_ids := eids,
                 player_stats := sd.player_stats, total_players := sd.total_players,
                 total_games := sd.total_games,
                 games_hash := games_hash (gameIdsFor games0 eids) }] := by
    simp [store_aggregated_stats, hkey]
  have hget : ∀ games1, get_aggregated_stats gk (store_aggregated_stats gk gt eids sd games0 t0) games1
      = if gameIdsFor games1 eids = gameIdsFor games0 eids then some sd else none := by
    intro games1
    have hfind : (store_aggregated_stats gk gt eids sd games0 t0).find?
          (fun e => e.group_key == gk)
        = some ({ group_key := gk, group_type := gt, event_ids := eids,
                  player_stats := sd.player_stats, total_players := sd.total_players,
                  total_games := sd.total_games,
                  games_hash := games_hash (gameIdsFor games0 eids) } : AggEntry α) := by
      rw [hstore, List.find?_append, hkey]
      simp
    simp only [get_aggregated_stats, hfind, games_hash]
  refine ⟨hget, ?_, ?_, ?_⟩
  · rw [hget games0, if_pos rfl]
  · intro g hev hfresh heq
    have hmem1 : g.id ∈ gameIdsFor (games0 ++ [g]) eids := by
      rw [mem_gameIdsFor]
      exact ⟨g, by simp, rfl, hev⟩
    have hmem0 : g.id ∉ gameIdsFor games0 eids := by
      rw [mem_gameIdsFor]
      rintro ⟨g0, hg0, hid, -⟩
      exact hfresh g0 hg0 hid
    rw [heq] at hmem1
    exact hmem0 hmem1
  · intro l1 g l2 hsplit hev hnd heq
    have hmem0 : g.id ∈ gameIdsFor games0 eids := by
      rw [mem_gameIdsFor]
      exact ⟨g, by rw [hsplit]; simp, rfl, hev⟩
    have hmem1 : g.id ∉ gameIdsFor (l1 ++ l2) eids := by
      rw [mem_gameIdsFor]
      rintro ⟨g1, hg1, hid, -⟩
      rw [hsplit] at hnd
      simp only [List.map_append, List.map_cons, List.nodup_append] at hnd
      rcases List.mem_append.mp hg1 with h | h
      · have : g.id ∈ l1.map (·.id) := by
          rw [← hid]; exact List.mem_map_of_mem _ h
        exact hnd.2.2 this (by simp)
      · have hcons : (g.id :: l2.map (·.id)).Nodup := hnd.2.1
        have : g.id ∈ l2.map (·.id) := by
          rw [← hid]; exact List.mem_map_of_mem _ h
        exact (List.nodup_cons.mp hcons).1 this
    rw [heq] at hmem1
    exact hmem1 hmem0

/-- C2 witness: a concrete stored entry; adding game row 2 to the group
forces a miss. -/
theorem C2_hash_gated_cache_witness :
    (([] : List (AggEntry Nat)).find? (fun e => e.group_key == "g") = none)
    ∧ get_aggregated_stats "g"
        (store_aggregated_stats "g" "grouped" [33] (⟨77, 1, 1⟩ : StatsData Nat) [⟨1, 33⟩] [])
        [⟨1, 33⟩] = some ⟨77, 1, 1⟩
    ∧ get_aggregated_stats "g"
        (store_aggregated_stats "g" "grouped" [33] (⟨77, 1, 1⟩ : StatsData Nat) [⟨1, 33⟩] [])
        ([⟨1, 33⟩] ++ [⟨2, 33⟩]) = none := by
  have h := C2_hash_gated_cache "g" "grouped" [33] (⟨77, 1, 1⟩ : StatsData Nat) [⟨1, 33⟩] [] rfl
  refine ⟨rfl, h.2.1, ?_⟩
  rw [h.1]
  rw [if_neg (h.2.2.1 ⟨2, 33⟩ (by decide) (by decide))]

theorem discoverLoop_mem (details : List BracketDetail) (seen : List Int) (games : List GameRef)
    (mid : Int) (hmid : mid ≠ 0) :
    mid ∈ (discoverLoop details seen games).map (·.match_id) ↔
      (mid ∈ games.map (·.match_id) ∨ (mid ∉ seen ∧ firstEntryHasResults mid details = true)) := by
  induction details generalizing seen games with
  | nil => simp [discoverLoop, firstEntryHasResults]
  | cons d rest ih =>
    cases hd : d.bracketmatchid with
    | none =>
      have hstep : discoverLoop (d :: rest) seen games = discoverLoop rest seen games := by
        simp [discoverLoop, hd]
      have hfe : firstEntryHasResults mid (d :: rest) = firstEntryHasResults mid rest := by
        simp [firstEntryHasResults, hd]
      rw [hstep, hfe, ih]
    | some m =>
      by_cases hm0 : m = 0
      · subst hm0
        have h0 : ¬((0 : Int) = mid) := fun h => hmid h.symm
        have hstep : discoverLoop (d :: rest) seen games = discoverLoop rest seen games := by
          simp [discoverLoop, hd]
        have hfe : firstEntryHasResults mid (d :: rest) = firstEntryHasResults mid rest := by
          simp [firstEntryHasResults, hd, h0]
        rw [hstep, hfe, ih]
      · by_cases hmm : m = mid
        · subst hmm
          have hfe : firstEntryHasResults m (d :: rest) = !d.gameResults.isEmpty := by
            simp [firstEntryHasResults, hd]
          by_cases hseen : seen.contains m
          · have hms : m ∈ seen := List.elem_iff.mp hseen
            have hstep : discoverLoop (d :: rest) seen games = discoverLoop rest seen games := by
              simp [discoverLoop, hd, hm0, hms]
            rw [hstep, ih]
            simp [hms]
          · have hseenm : m ∉ seen := fun h => hseen (List.elem_iff.mpr h)
            by_cases hres : d.gameResults.isEmpty
            · have hstep : discoverLoop (d :: rest) seen games
                  = discoverLoop rest (m :: seen) games := by
                simp [discoverLoop, hd, hm0, hseenm, hres]
              rw [hstep, ih, hfe]
              simp [hres, List.mem_cons]
            · have hstep : discoverLoop (d :: rest) seen games
                  = discoverLoop rest (m :: seen) (games ++ [⟨m, 1⟩]) := by
                simp [discoverLoop, hd, hm0, hseenm, hres]
              rw [hstep, ih, hfe]
              simp [hres, hseenm, List.mem_cons, List.map_append]
        · have hmm2 : ¬(mid = m) := fun h => hmm h.symm
          have hfe : firstEntryHasResults mid (d :: rest) = firstEntryHasResults mid rest := by
            simp [firstEntryHasResults, hd, hmm]
          by_cases hseen : seen.contains m
          · have hms : m ∈ seen := List.elem_iff.mp hseen
            have hstep : discoverLoop (d :: rest) seen games = discoverLoop rest seen games := by
              simp [discoverLoop, hd, hm0, hms]
            rw [hstep, hfe, ih]
          · have hseenm : m ∉ seen := fun h => hseen (List.elem_iff.mpr h)
            by_cases hres : d.gameResults.isEmpty
            · have hstep : discoverLoop (d :: rest) seen games
                  = discoverLoop rest (m :: seen) games := by
                simp [discoverLoop, hd, hm0, hseenm, hres]
              rw [hstep, hfe, ih]
              simp [List.mem_cons, hmm2]
            · have hstep : discoverLoop (d :: rest) seen games
                  = discoverLoop rest (m :: seen) (games ++ [⟨m, 1⟩]) := by
                simp [discoverLoop, hd, hm0, hseenm, hres]
              rw [hstep, hfe, ih]
              simp [List.mem_cons, hmm2, List.map_append, hmm]

theorem discoverLoop_nodup (details : List BracketDetail) (seen : List Int) (games : List GameRef)
    (h1 : (games.map (·.match_id)).Nodup)
    (h2 : ∀ g ∈ games, g.match_id ∈ seen)
    (h3 : ∀ g ∈ games, g.game_id = 1) :
    ((discoverLoop details seen games).map (·.match_id)).Nodup
    ∧ ∀ g ∈ discoverLoop details seen games, g.game_id = 1 := by
  induction details generalizing seen games with
  | nil => exact ⟨h1, h3⟩
  | cons d rest ih =>
    cases hd : d.bracketmatchid with
    | none => simpa [discoverLoop, hd] using ih seen games h1 h2 h3
    | some m =>
      by_cases hm0 : m = 0
      · subst hm0
        simpa [discoverLoop, hd] using ih seen games h1 h2 h3
      · by_cases hseen : seen.contains m
        · have hms : m ∈ seen := List.elem_iff.mp hseen
          simpa [discoverLoop, hd, hm0, hms] using ih seen games h1 h2 h3
        · have hseenm : m ∉ seen := fun h => hseen (List.elem_iff.mpr h)
          by_cases hres : d.gameResults.isEmpty
          · simp only [discoverLoop, hd, if_neg hm0, if_neg hseen, if_pos hres]
            exact ih (m :: seen) games h1 (fun g hg => List.mem_cons_of_mem _ (h2 g hg)) h3
          · simp only [discoverLoop, hd, if_neg hm0, if_neg hseen, if_neg hres]
            refine ih (m :: seen) (games ++ [⟨m, 1⟩]) ?_ ?_ ?_
            · rw [List.map_append]
              rw [List.nodup_append]
              refine ⟨h1, by simp, ?_⟩
              intro a ha hb
              have : a = m := by simpa using hb
              subst this
              rcases List.mem_map.mp ha with ⟨g, hg, hgid⟩
              exact hseenm (hgid ▸ h2 g hg)
            · intro g hg
              rcases List.mem_append.mp hg with h | h
              · exact List.mem_cons_of_mem _ (h2 g h)
              · have : g = ⟨m, 1⟩ := by simpa using h
                subst this
                exact List.mem_cons_self _ _
            · intro g hg
              rcases List.mem_append.mp hg with h | h
              · exact h3 g h
              · have : g = ⟨m, 1⟩ := by simpa using h
                subst this
                rfl

/-- C9 counterexample: the claim says discovery returns exactly the set of
distinct match ids some bracket entry of which carries non-empty game
results.  With two entries for match id 5, the first without results, the
source marks 5 as seen at its first entry and returns nothing, while the
claimed set is the singleton 5. -/
theorem C9_discovery_counterexample :
    discover_all_games_from_bracket ⟨[⟨some 5, []⟩, ⟨some 5, [7]⟩]⟩ = []
    ∧ claimedDiscoverIds ⟨[⟨some 5, []⟩, ⟨some 5, [7]⟩]⟩ = [5] := by
  constructor <;> rfl

/-- C9 (amended): discovery returns pairwise distinct match ids, each paired
with game id 1, and a non-zero match id is returned exactly when the first
bracket entry carrying that id has non-empty game results (an entry with
empty or missing results is skipped, and it shadows any later duplicate
entry of the same id). -/
theorem C9_discovery_first_entry (b : BracketData) :
    ((discover_all_games_from_bracket b).map (·.match_id)).Nodup
    ∧ (∀ g ∈ discover_all_games_from_bracket b, g.game_id = 1)
    ∧ (∀ mid : Int, mid ≠ 0 →
        (mid ∈ (discover_all_games_from_bracket b).map (·.match_id) ↔
          firstEntryHasResults mid b.bracketDetails = true)) := by
  have hn := discoverLoop_nodup b.bracketDetails [] [] (by simp) (by simp) (by simp)
  refine ⟨hn.1, hn.2, ?_⟩
  intro mid hmid
  rw [discover_all_games_from_bracket, discoverLoop_mem _ _ _ _ hmid]
  simp

/-- C9 witness: on a bracket with one played entry for id 9, one unplayed
entry and one duplicate, id 9 is discovered, once, with game id 1. -/
theorem C9_discovery_first_entry_witness :
    ((9 : Int) ≠ 0)
    ∧ (((discover_all_games_from_bracket ⟨[⟨some 9, [1, 2]⟩, ⟨some 4, []⟩, ⟨some 9, []⟩]⟩).map
        (·.match_id)).Nodup
      ∧ ((9 : Int) ∈ (discover_all_games_from_bracket
          ⟨[⟨some 9, [1, 2]⟩, ⟨some 4, []⟩, ⟨some 9, []⟩]⟩).map (·.match_id) ↔
        firstEntryHasResults 9 [⟨some 9, [1, 2]⟩, ⟨some 4, []⟩, ⟨some 9, []⟩] = true)) :=
  ⟨by decide,
    (C9_discovery_first_entry ⟨[⟨some 9, [1, 2]⟩, ⟨some 4, []⟩, ⟨some 9, []⟩]⟩).1,
    (C9_discovery_first_entry ⟨[⟨some 9, [1, 2]⟩, ⟨some 4, []⟩, ⟨some 9, []⟩]⟩).2.2 9 (by decide)⟩

/-- C3 counterexample: after a completed indexing run over a bracket whose
discovery list has one played match, an event that already stores two game
rows (for instance from an earlier fallback probing run, or a second game of
the match) ends with games_indexed_count = 2 above games_total_count = 1,
refuting the claimed invariant games_indexed_count <= games_total_count. -/
theorem C3_completion_counterexample :
    (discoverAndIndexFinalCounters ⟨[⟨some 5, [7]⟩]⟩ [⟨1, 33⟩, ⟨2, 33⟩] 33
        ⟨0, 0, false⟩).games_indexed_count = 2
    ∧ (discoverAndIndexFinalCounters ⟨[⟨some 5, [7]⟩]⟩ [⟨1, 33⟩, ⟨2, 33⟩] 33
        ⟨0, 0, false⟩).games_total_count = 1
    ∧ ¬((discoverAndIndexFinalCounters ⟨[⟨some 5, [7]⟩]⟩ [⟨1, 33⟩, ⟨2, 33⟩] 33
        ⟨0, 0, false⟩).games_indexed_count
      ≤ (discoverAndIndexFinalCounters ⟨[⟨some 5, [7]⟩]⟩ [⟨1, 33⟩, ⟨2, 33⟩] 33
        ⟨0, 0, false⟩).games_total_count) := by
  refine ⟨rfl, rfl, ?_⟩
  decide

/-- C3 (amended): when the bracket-derived total is known (discovery
non-empty), the completion update sets games_total_count to the discovery
count, games_indexed_count to the full stored-game count, and
games_fully_indexed to exactly (games_indexed_count >= games_total_count);
games_indexed_count <= games_total_count additionally holds whenever the
stored game count does not exceed the bracket-derived total, but the update
itself does not enforce that bound. -/
theorem C3_completion_invariant (bracket : BracketData) (dbGames : List EventGameRow)
    (event_id : Nat) (e : EventCounters)
    (hne : discover_all_games_from_bracket bracket ≠ []) :
    (discoverAndIndexFinalCounters bracket dbGames event_id e).games_total_count
      = (discover_all_games_from_bracket bracket).length
    ∧ (discoverAndIndexFinalCounters bracket dbGames event_id e).games_indexed_count
      = (dbGames.filter (fun g => g.event_id == event_id)).length
    ∧ (discoverAndIndexFinalCounters bracket dbGames event_id e).games_fully_indexed
      = decide ((discoverAndIndexFinalCounters bracket dbGames event_id e).games_total_count
          ≤ (discoverAndIndexFinalCounters bracket dbGames event_id e).games_indexed_count)
    ∧ ((dbGames.filter (fun g => g.event_id == event_id)).length
          ≤ (discover_all_games_from_bracket bracket).length →
        (discoverAndIndexFinalCounters bracket dbGames event_id e).games_indexed_count
          ≤ (discoverAndIndexFinalCounters bracket dbGames event_id e).games_total_count) := by
  have hempty : (discover_all_games_from_bracket bracket).isEmpty = false := by
    simpa [List.isEmpty_iff] using hne
  have hlen : (discover_all_games_from_bracket bracket).length ≠ 0 := by
    simpa [List.length_eq_zero] using hne
  refine ⟨?_, ?_, ?_, ?_⟩
  · simp [discoverAndIndexFinalCounters, updateEventCompletion, hempty, hlen]
  · simp [discoverAndIndexFinalCounters, updateEventCompletion, hempty]
  · simp [discoverAndIndexFinalCounters, updateEventCompletion, hempty, hlen, ge_iff_le]
  · intro h
    simp [discoverAndIndexFinalCounters, updateEventCompletion, hempty, hlen]
    exact h

/-- C3 witness: a bracket with two played matches, one stored game. -/
theorem C3_completion_invariant_witness :
    (discover_all_games_from_bracket ⟨[⟨some 5, [7]⟩, ⟨some 9, [1]⟩]⟩ ≠ [])
    ∧ (discoverAndIndexFinalCounters ⟨[⟨some 5, [7]⟩, ⟨some 9, [1]⟩]⟩ [⟨1, 33⟩] 33
        ⟨0, 0, false⟩).games_total_count
      = (discover_all_games_from_bracket ⟨[⟨some 5, [7]⟩, ⟨some 9, [1]⟩]⟩).length :=
  ⟨by decide,
    (C3_completion_invariant ⟨[⟨some 5, [7]⟩, ⟨some 9, [1]⟩]⟩ [⟨1, 33⟩] 33 ⟨0, 0, false⟩
      (by decide)).1⟩

/-- C4 counterexample: with standings wins = 1 and losses = 1 the stored
win_pct is 50 (the source multiplies the win fraction by 100), not the
claimed wins/(wins+losses) = 1/2, even though the stats feed carried its own
disagreeing rank, wins, losses and winPct. -/
theorem C4_win_pct_counterexample :
    (mergeStandings
        (parse_player_event_stats ⟨some 7, some 5, some 9, some 9, some (1 / 4), none, none⟩ 55)
        (some ⟨some 1, some 1, some 1⟩)).win_pct = some 50
    ∧ (50 : ℚ) ≠ (1 : ℚ) / ((1 : ℚ) + (1 : ℚ)) := by
  constructor
  · norm_num [mergeStandings, applyStandings, parse_player_event_stats]
  · norm_num

/-- C4 (amended): the stored rank, wins and losses equal the standings
values whenever standings provide them and stay None otherwise (they are
never copied from the per-player stats payload, whose ranking, wins, losses
and winPct fields do not occur in these equations at all); win_pct is
recomputed from the standings-derived wins and losses as
wins/(wins+losses) * 100, and is never taken from either feed. -/
theorem C4_standings_precedence (s : EventStatsPayload) (event_id : Nat)
    (si : Option StandingInfo) :
    (mergeStandings (parse_player_event_stats s event_id) si).rank = si.bind (fun i => i.rank)
    ∧ (mergeStandings (parse_player_event_stats s event_id) si).wins = si.bind (fun i => i.wins)
    ∧ (mergeStandings (parse_player_event_stats s event_id) si).losses
      = si.bind (fun i => i.losses)
    ∧ (mergeStandings (parse_player_event_stats s event_id) si).win_pct
      = (match si with
         | some i =>
           (match i.wins, i.losses with
            | some w, some l =>
              if w + l > 0 then some (((w : ℚ) / ((w : ℚ) + (l : ℚ))) * 100) else none
            | _, _ => none)
         | none => none) := by
  cases si with
  | none => simp [mergeStandings, parse_player_event_stats]
  | some i =>
    rcases i with ⟨ro, wo, lo⟩
    rcases ro with _ | r <;> rcases wo with _ | w <;> rcases lo with _ | l <;>
      simp [mergeStandings, applyStandings, parse_player_event_stats] <;>
      split_ifs <;> simp_all

/-- C5: with force_reindex on an already-indexed event id, index_event
db.add-s a fresh Event row whose INSERT violates the unique event_id
constraint; the exception handler rolls the transaction back (so the prior
PlayerEventStats rows survive, nothing is upserted) and the call returns
False; without force_reindex the call short-circuits, returning True and
leaving every stored record identical. -/
theorem C5_index_event_behavior (eid : Nat) (payload : IndexPayload) (db : EventsDb)
    (h : eid ∈ db.events) :
    index_event eid payload db false = (true, db)
    ∧ index_event eid payload db true = (false, db) := by
  constructor
  · simp [index_event, h]
  · simp [index_event, h]

/-- C5 witness: a concrete store already holding event 33 with one player
row. -/
theorem C5_index_event_behavior_witness :
    (33 ∈ [33])
    ∧ index_event 33 ⟨[1, 2], [1, 2], [5]⟩ ⟨[33], [(33, 1)], [(33, 1)], [(33, 7)]⟩ false
      = (true, ⟨[33], [(33, 1)], [(33, 1)], [(33, 7)]⟩)
    ∧ index_event 33 ⟨[1, 2], [1, 2], [5]⟩ ⟨[33], [(33, 1)], [(33, 1)], [(33, 7)]⟩ true
      = (false, ⟨[33], [(33, 1)], [(33, 1)], [(33, 7)]⟩) :=
  ⟨by decide,
    (C5_index_event_behavior 33 ⟨[1, 2], [1, 2], [5]⟩ ⟨[33], [(33, 1)], [(33, 1)], [(33, 7)]⟩
      (by decide)).1,
    (C5_index_event_behavior 33 ⟨[1, 2], [1, 2], [5]⟩ ⟨[33], [(33, 1)], [(33, 1)], [(33, 7)]⟩
      (by decide)).2⟩

theorem entriesFor_zero_find?_none (url : String) (cache : List CacheRow)
    (h0 : entriesFor url cache = 0) :
    cache.find? (fun e => e.url_hash == get_url_hash url) = none := by
  rw [List.find?_eq_none]
  intro x hx
  exact (List.countP_eq_zero.mp h0) x hx

/-- C6 counterexample: a URL whose fetch returns 404 is never written to the
cache, so a second fetch of the same URL makes another network call and the
cache still holds zero entries for it, against the claimed exactly-one entry
and cache-hit second fetch. -/
theorem C6_cache_dedup_counterexample :
    (index_event_info .notFound "u" []).2.2 = true
    ∧ (index_event_info .notFound "u" []).2.1 = []
    ∧ (index_event_info .notFound "u" (index_event_info .notFound "u" []).2.1).2.2 = true
    ∧ entriesFor "u" (index_event_info .notFound "u" (index_event_info .notFound "u" []).2.1).2.1
      = 0 := by
  exact ⟨rfl, rfl, rfl, rfl⟩

/-- C6 (amended): cache_response is upsert-on-hash, so a second write to the
same URL leaves exactly one entry, holding the second body; and when the
first fetch obtains an HTTP response (which is always cached, whatever its
status marker), the second fetch of the same URL hits the cache: it makes no
network call, leaves the cache unchanged, and exactly one entry for the URL
exists.  A 404 first fetch is not cached and is re-probed (see the
counterexample). -/
theorem C6_cache_dedup (url etype : String) (b1 b2 : RespBody) (st1 st2 : Option Nat)
    (cache0 : List CacheRow) (h0 : entriesFor url cache0 = 0) :
    entriesFor url (cache_response etype url b1 st1 cache0) = 1
    ∧ entriesFor url (cache_response etype url b2 st2 (cache_response etype url b1 st1 cache0)) = 1
    ∧ get_cached_response url
        (cache_response etype url b2 st2 (cache_response etype url b1 st1 cache0)) = some b2
    ∧ (∀ net2 : HttpOutcome,
        entriesFor url (index_event_info (.success b1) url cache0).2.1 = 1
        ∧ (index_event_info net2 url (index_event_info (.success b1) url cache0).2.1).2.2 = false
        ∧ (index_event_info net2 url (index_event_info (.success b1) url cache0).2.1).2.1
          = (index_event_info (.success b1) url cache0).2.1) := by
  have hfind0 := entriesFor_zero_find?_none url cache0 h0
  have happend : ∀ (et : String) (b : RespBody) (st : Option Nat),
      cache_response et url b st cache0
        = cache0 ++ [{ endpoint_type := et, url := url, url_hash := get_url_hash url,
                       response_json := b, http_status := st }] := by
    intro et b st
    simp [cache_response, hfind0]
  have hcount1 : ∀ (et : String) (b : RespBody) (st : Option Nat),
      entriesFor url (cache_response et url b st cache0) = 1 := by
    intro et b st
    rw [happend et b st]
    unfold entriesFor
    rw [List.countP_append]
    rw [entriesFor] at h0
    rw [h0]
    simp
  have hfind1 : ∀ (et : String) (b : RespBody) (st : Option Nat),
      (cache_response et url b st cache0).find? (fun e => e.url_hash == get_url_hash url)
        = some { endpoint_type := et, url := url, url_hash := get_url_hash url,
                 response_json := b, http_status := st } := by
    intro et b st
    rw [happend et b st, List.find?_append, hfind0]
    simp
  have hsecond : cache_response etype url b2 st2 (cache_response etype url b1 st1 cache0)
      = cache0 ++ [{ endpoint_type := etype, url := url, url_hash := get_url_hash url,
                     response_json := b2, http_status := st2 }] := by
    rw [cache_response, if_pos (by rw [hfind1 etype b1 st1]; rfl)]
    rw [happend etype b1 st1]
    rw [List.map_append]
    have hmap0 : cache0.map (fun e =>
        if e.url_hash == get_url_hash url then
          { e with response_json := b2, http_status := st2 }
        else e) = cache0 := by
      conv_rhs => rw [← List.map_id cache0]
      apply List.map_congr_left
      intro a ha
      have : ¬((a.url_hash == get_url_hash url) = true) := (List.countP_eq_zero.mp h0) a ha
      simp [this]
    rw [hmap0]
    simp
  refine ⟨hcount1 etype b1 st1, ?_, ?_, ?_⟩
  · rw [hsecond]
    unfold entriesFor
    rw [List.countP_append]
    rw [entriesFor] at h0
    rw [h0]
    simp
  · rw [hsecond]
    unfold get_cached_response
    rw [List.find?_append, hfind0]
    simp
  · intro net2
    have hmiss : get_cached_response url cache0 = none := by
      unfold get_cached_response
      rw [hfind0]
      rfl
    have hc1 : (index_event_info (.success b1) url cache0).2.1
        = cache_response "event_info" url b1 (some 200) cache0 := by
      simp [index_event_info, hmiss]
    have hhit : get_cached_response url (cache_response "event_info" url b1 (some 200) cache0)
        = some b1 := by
      unfold get_cached_response
      rw [hfind1 "event_info" b1 (some 200)]
      rfl
    refine ⟨?_, ?_, ?_⟩
    · rw [hc1]
      exact hcount1 "event_info" b1 (some 200)
    · rw [hc1]
      simp [index_event_info, hhit]
    · rw [hc1]
      simp [index_event_info, hhit]

/-- C6 witness: concrete empty cache, one OK fetch, then a second fetch. -/
theorem C6_cache_dedup_witness :
    entriesFor "u" [] = 0
    ∧ entriesFor "u" (index_event_info (.success ⟨"OK", 9⟩) "u" []).2.1 = 1
    ∧ (index_event_info .notFound "u" (index_event_info (.success ⟨"OK", 9⟩) "u" []).2.1).2.2
      = false :=
  ⟨rfl,
    ((C6_cache_dedup "u" "event_info" ⟨"OK", 9⟩ ⟨"OK", 9⟩ none none [] rfl).2.2.2 .notFound).1,
    ((C6_cache_dedup "u" "event_info" ⟨"OK", 9⟩ ⟨"OK", 9⟩ none none [] rfl).2.2.2 .notFound).2.1⟩

theorem dictGet_cons {α β : Type} [BEq α] (k1 : α) (v1 : β) (rest : List (α × β)) (a : α) :
    dictGet ((k1, v1) :: rest) a = if (k1 == a) = true then some v1 else dictGet rest a := by
  by_cases h : (k1 == a) = true
  · simp [dictGet, List.find?_cons, h]
  · simp [dictGet, List.find?_cons, h]

theorem dictGet_dictSet {α β : Type} [BEq α] [LawfulBEq α] [DecidableEq α] (m : List (α × β)) (k : α) (v : β)
    (a : α) :
    dictGet (dictSet m k v) a = if a = k then some v else dictGet m a := by
  induction m with
  | nil =>
    show dictGet ((k, v) :: []) a = _
    rw [dictGet_cons]
    by_cases h : a = k
    · subst h; simp
    · have hk : ¬(k == a) = true := by
        simp only [beq_iff_eq]; exact fun hh => h hh.symm
      simp [h, hk, dictGet]
  | cons e rest ih =>
    rcases e with ⟨k1, v1⟩
    simp only [dictSet]
    by_cases hk : (k1 == k) = true
    · rw [if_pos hk]
      have hk1 : k1 = k := by simpa using hk
      subst hk1
      rw [dictGet_cons, dictGet_cons]
      by_cases h : a = k1
      · subst h; simp
      · have hne : ¬(k1 == a) = true := by
          simp only [beq_iff_eq]; exact fun hh => h hh.symm
        simp [h, hne]
    · rw [if_neg hk]
      have hkne : k1 ≠ k := by simpa using hk
      rw [dictGet_cons, dictGet_cons, ih]
      by_cases h : (k1 == a) = true
      · have ha1 : k1 = a := by simpa using h
        have hak : ¬(a = k) := fun hh => hkne (ha1.trans hh)
        simp [h, hak]
      · simp [h]

theorem symm_addPair (m : List (Int × Int)) (p q : Int) (hS : SymmMap m)
    (hp : dictGet m p = none) (hq : dictGet m q = none) :
    SymmMap (dictSet (dictSet m p q) q p) := by
  have hg : ∀ c, dictGet (dictSet (dictSet m p q) q p) c
      = if c = q then some p else if c = p then some q else dictGet m c := by
    intro c
    rw [dictGet_dictSet, dictGet_dictSet]
  intro a b hab
  rw [hg] at hab
  rw [hg]
  by_cases haq : a = q
  · rw [if_pos haq] at hab
    have hbp : b = p := (Option.some.inj hab).symm
    by_cases hbq : b = q
    · rw [if_pos hbq, haq, ← hbp, hbq]
    · rw [if_neg hbq, if_pos hbp, haq]
  · rw [if_neg haq] at hab
    by_cases hap : a = p
    · rw [if_pos hap] at hab
      have hbq : b = q := (Option.some.inj hab).symm
      rw [if_pos hbq, hap]
    · rw [if_neg hap] at hab
      have hba := hS a b hab
      have hbq : ¬(b = q) := fun hh => by
        rw [hh] at hba; rw [hba] at hq; exact Option.noConfusion hq
      have hbp : ¬(b = p) := fun hh => by
        rw [hh] at hba; rw [hba] at hp; exact Option.noConfusion hp
      rw [if_neg hbq, if_neg hbp]
      exact hba

theorem symm_addPairStep (m : List (Int × Int)) (pc : (Int × Int) × Nat) (hS : SymmMap m) :
    SymmMap (addPairStep m pc) := by
  simp only [addPairStep]
  split_ifs with hcnt g1 g2 g3
  · -- the adoption branch: derive that both members are unassigned
    have hp1 : dictGet m pc.1.1 = none := by
      cases h1 : dictGet m pc.1.1 with
      | none => rfl
      | some x =>
        rcases Bool.or_eq_true_iff.mp g2 with h | h
        · rw [h1] at h; simp at h
        · rw [h1] at h
          have hx : x = pc.1.2 := by simpa using h
          subst hx
          have := hS _ _ h1
          rcases Bool.or_eq_true_iff.mp g1 with h2 | h2
          · rw [h1] at h2; simp at h2
          · rw [this] at h2; simp at h2
    have hp2 : dictGet m pc.1.2 = none := by
      cases h2 : dictGet m pc.1.2 with
      | none => rfl
      | some y =>
        rcases Bool.or_eq_true_iff.mp g3 with h | h
        · rw [h2] at h; simp at h
        · rw [h2] at h
          have hy : y = pc.1.1 := by simpa using h
          subst hy
          have := hS _ _ h2
          rw [this] at hp1; exact Option.noConfusion hp1
    exact symm_addPair m pc.1.1 pc.1.2 hS hp1 hp2
  · exact hS
  · exact hS
  · exact hS
  · exact hS

theorem foldl_addPairStep_symm (pairs : List ((Int × Int) × Nat)) (m : List (Int × Int))
    (hS : SymmMap m) : SymmMap (pairs.foldl addPairStep m) := by
  induction pairs generalizing m with
  | nil => exact hS
  | cons pc rest ih =>
    exact ih (addPairStep m pc) (symm_addPairStep m pc hS)

theorem dedupFirstAux_nodup {α : Type} [BEq α] [LawfulBEq α] (seen : List α) (l : List α) :
    (dedupFirstAux seen l).Nodup ∧ ∀ a ∈ dedupFirstAux seen l, a ∉ seen := by
  induction l generalizing seen with
  | nil => simp [dedupFirstAux]
  | cons x xs ih =>
    by_cases hx : seen.contains x
    · have hxm : x ∈ seen := List.elem_iff.mp hx
      simpa [dedupFirstAux, hxm] using ih seen
    · have hxm : x ∉ seen := fun h => hx (List.elem_iff.mpr h)
      have hrec := ih (x :: seen)
      have hstep : dedupFirstAux seen (x :: xs) = x :: dedupFirstAux (x :: seen) xs := by
        simp [dedupFirstAux, hxm]
      rw [hstep]
      refine ⟨List.nodup_cons.mpr ⟨?_, hrec.1⟩, ?_⟩
      · intro hmem
        exact (hrec.2 x hmem) (List.mem_cons_self x seen)
      · intro a ha
        rcases List.mem_cons.mp ha with rfl | ha2
        · exact hxm
        · exact fun hseen => (hrec.2 a ha2) (List.mem_cons_of_mem _ hseen)

theorem dedupFirst_nodup {α : Type} [BEq α] [LawfulBEq α] (l : List α) :
    (dedupFirst l).Nodup :=
  (dedupFirstAux_nodup [] l).1

theorem groupPlayers_disjoint (st : List (Int × Option Int))
    (hnd : (st.map (·.1)).Nodup) (r r2 : Option Int) (hne : r ≠ r2) (a : Int)
    (h1 : a ∈ groupPlayers st r) (h2 : a ∈ groupPlayers st r2) : False := by
  rcases List.mem_map.mp h1 with ⟨e, he, hea⟩
  rcases List.mem_map.mp h2 with ⟨e2, he2, hea2⟩
  have heq : e = e2 :=
    List.inj_on_of_nodup_map hnd (List.mem_filter.mp he).1 (List.mem_filter.mp he2).1
      (by rw [hea, hea2])
  have hr : e.2 = r := by simpa using (List.mem_filter.mp he).2
  have hr2 : e2.2 = r2 := by simpa using (List.mem_filter.mp he2).2
  exact hne (by rw [← hr, heq, hr2])

theorem partnersFold_symm (st : List (Int × Option Int))
    (hnd : (st.map (·.1)).Nodup) :
    ∀ (keys : List (Option Int)) (m : List (Int × Int)), SymmMap m → keys.Nodup →
      (∀ r ∈ keys, ∀ a ∈ groupPlayers st r, dictGet m a = none) →
      SymmMap (keys.foldl (fun m r =>
        match groupPlayers st r with
        | [a, b] => dictSet (dictSet m a b) b a
        | _ => m) m) := by
  intro keys
  induction keys with
  | nil => intro m hS _ _; exact hS
  | cons r rest ih =>
    intro m hS hkeys hdom
    simp only [List.foldl_cons]
    have hkr : r ∉ rest := (List.nodup_cons.mp hkeys).1
    have hkrest : rest.Nodup := (List.nodup_cons.mp hkeys).2
    cases hg : groupPlayers st r with
    | nil =>
      refine ih m hS hkrest ?_
      intro r2 hr2 a ha
      exact hdom r2 (List.mem_cons_of_mem _ hr2) a ha
    | cons x tail =>
      cases tail with
      | nil =>
        refine ih m hS hkrest ?_
        intro r2 hr2 a ha
        exact hdom r2 (List.mem_cons_of_mem _ hr2) a ha
      | cons y tail2 =>
        cases tail2 with
        | nil =>
          -- the two-player group: adopt the pair
          have hx : x ∈ groupPlayers st r := by rw [hg]; simp
          have hy : y ∈ groupPlayers st r := by rw [hg]; simp
          have hxnone : dictGet m x = none := hdom r (List.mem_cons_self _ _) x hx
          have hynone : dictGet m y = none := hdom r (List.mem_cons_self _ _) y hy
          refine ih (dictSet (dictSet m x y) y x)
            (symm_addPair m x y hS hxnone hynone) hkrest ?_
          intro r2 hr2 a ha
          have hner : r ≠ r2 := fun hh => hkr (hh ▸ hr2)
          have hax : a ≠ x := fun hh =>
            groupPlayers_disjoint st hnd r r2 hner a (hh ▸ hx) ha
          have hay : a ≠ y := fun hh =>
            groupPlayers_disjoint st hnd r r2 hner a (hh ▸ hy) ha
          rw [dictGet_dictSet, dictGet_dictSet, if_neg hay, if_neg hax]
          exact hdom r2 (List.mem_cons_of_mem _ hr2) a ha
        | cons z tail3 =>
          refine ih m hS hkrest ?_
          intro r2 hr2 a ha
          exact hdom r2 (List.mem_cons_of_mem _ hr2) a ha

theorem partnersFromStandings_symm (st : List (Int × Option Int))
    (hnd : (st.map (·.1)).Nodup) : SymmMap (partnersFromStandings st) := by
  unfold partnersFromStandings
  refine partnersFold_symm st hnd (rankKeys st) [] ?_ ?_ ?_
  · intro a b hab
    simp [dictGet] at hab
  · exact dedupFirst_nodup _
  · intro r _ a _
    simp [dictGet]

/-- C8: with pairwise distinct standings players (the unique
(event, player) constraint of event_standings), the inferred partner map is
symmetric: whenever partner(a) = b also partner(b) = a, and being a map it
assigns each player at most one partner; the standings pairing runs first
and raw-data pairs are adopted only when consistent with what is already
assigned.  In particular, for the synthetic doubles bracket where standings
rank 1 is shared by players 1 and 2, rank 2 by players 3 and 4, and players
1 and 2 always co-occur as team 1 across five game payloads (3 and 4 as
team 2), the map assigns partner(1) = 2 and partner(2) = 1. -/
theorem C8_doubles_partner_inference (st : List (Int × Option Int))
    (games : List (Option (List PlayerSlot))) (hnd : (st.map (·.1)).Nodup) :
    SymmMap (extract_doubles_partners st games)
    ∧ dictGet (extract_doubles_partners
        [((1 : Int), some 1), (2, some 1), (3, some 2), (4, some 2)]
        [some [⟨some 1⟩, ⟨some 2⟩, ⟨some 3⟩, ⟨some 4⟩],
         some [⟨some 1⟩, ⟨some 2⟩, ⟨some 3⟩, ⟨some 4⟩],
         some [⟨some 1⟩, ⟨some 2⟩, ⟨some 3⟩, ⟨some 4⟩],
         some [⟨some 1⟩, ⟨some 2⟩, ⟨some 3⟩, ⟨some 4⟩],
         some [⟨some 1⟩, ⟨some 2⟩, ⟨some 3⟩, ⟨some 4⟩]]) (1 : Int) = some 2
    ∧ dictGet (extract_doubles_partners
        [((1 : Int), some 1), (2, some 1), (3, some 2), (4, some 2)]
        [some [⟨some 1⟩, ⟨some 2⟩, ⟨some 3⟩, ⟨some 4⟩],
         some [⟨some 1⟩, ⟨some 2⟩, ⟨some 3⟩, ⟨some 4⟩],
         some [⟨some 1⟩, ⟨some 2⟩, ⟨some 3⟩, ⟨some 4⟩],
         some [⟨some 1⟩, ⟨some 2⟩, ⟨some 3⟩, ⟨some 4⟩],
         some [⟨some 1⟩, ⟨some 2⟩, ⟨some 3⟩, ⟨some 4⟩]]) (2 : Int) = some 1 := by
  refine ⟨?_, by decide, by decide⟩
  unfold extract_doubles_partners
  exact foldl_addPairStep_symm _ _ (partnersFromStandings_symm st hnd)

/-- C8 witness: the symmetry consequence applied at the concrete scenario of
the claim. -/
theorem C8_doubles_partner_inference_witness :
    (([((1 : Int), some 1), (2, some 1), (3, some 2), (4, some 2)].map (·.1)).Nodup)
    ∧ dictGet (extract_doubles_partners
        [((1 : Int), some 1), (2, some 1), (3, some 2), (4, some 2)]
        [some [⟨some 1⟩, ⟨some 2⟩, ⟨some 3⟩, ⟨some 4⟩],
         some [⟨some 1⟩, ⟨some 2⟩, ⟨some 3⟩, ⟨some 4⟩],
         some [⟨some 1⟩, ⟨some 2⟩, ⟨some 3⟩, ⟨some 4⟩],
         some [⟨some 1⟩, ⟨some 2⟩, ⟨some 3⟩, ⟨some 4⟩],
         some [⟨some 1⟩, ⟨some 2⟩, ⟨some 3⟩, ⟨some 4⟩]]) (2 : Int) = some 1 :=
  ⟨by decide,
    (C8_doubles_partner_inference
      [((1 : Int), some 1), (2, some 1), (3, some 2), (4, some 2)]
      [some [⟨some 1⟩, ⟨some 2⟩, ⟨some 3⟩, ⟨some 4⟩],
       some [⟨some 1⟩, ⟨some 2⟩, ⟨some 3⟩, ⟨some 4⟩],
       some [⟨some 1⟩, ⟨some 2⟩, ⟨some 3⟩, ⟨some 4⟩],
       some [⟨some 1⟩, ⟨some 2⟩, ⟨some 3⟩, ⟨some 4⟩],
       some [⟨some 1⟩, ⟨some 2⟩, ⟨some 3⟩, ⟨some 4⟩]] (by decide)).2.2⟩

theorem dedupFirstAux_mem {α : Type} [BEq α] [LawfulBEq α] (seen : List α) (l : List α) (a : α) :
    a ∈ dedupFirstAux seen l ↔ (a ∈ l ∧ a ∉ seen) := by
  induction l generalizing seen with
  | nil => simp [dedupFirstAux]
  | cons x xs ih =>
    by_cases hx : seen.contains x
    · have hxm : x ∈ seen := List.elem_iff.mp hx
      rw [show dedupFirstAux seen (x :: xs) = dedupFirstAux seen xs from by
        simp [dedupFirstAux, hxm]]
      rw [ih]
      constructor
      · rintro ⟨h1, h2⟩
        exact ⟨List.mem_cons_of_mem _ h1, h2⟩
      · rintro ⟨h1, h2⟩
        rcases List.mem_cons.mp h1 with rfl | h1
        · exact absurd hxm h2
        · exact ⟨h1, h2⟩
    · have hxm : x ∉ seen := fun h => hx (List.elem_iff.mpr h)
      rw [show dedupFirstAux seen (x :: xs) = x :: dedupFirstAux (x :: seen) xs from by
        simp [dedupFirstAux, hxm]]
      constructor
      · intro h
        rcases List.mem_cons.mp h with rfl | h
        · exact ⟨List.mem_cons_self _ _, hxm⟩
        · rw [ih] at h
          exact ⟨List.mem_cons_of_mem _ h.1, fun hs => h.2 (List.mem_cons_of_mem _ hs)⟩
      · rintro ⟨h1, h2⟩
        rcases List.mem_cons.mp h1 with rfl | h1
        · exact List.mem_cons_self _ _
        · by_cases hax : a = x
          · subst hax
            exact List.mem_cons_self _ _
          · refine List.mem_cons_of_mem _ ((ih (x :: seen)).mpr ⟨h1, ?_⟩)
            intro hmem
            rcases List.mem_cons.mp hmem with h | h
            · exact hax h
            · exact h2 h

theorem dedupFirst_mem {α : Type} [BEq α] [LawfulBEq α] (l : List α) (a : α) :
    a ∈ dedupFirst l ↔ a ∈ l := by
  rw [dedupFirst, dedupFirstAux_mem]
  simp

theorem mem_rawRankOccurrences_aux (r : Nat) (pid : Nat) :
    ∀ (ps : List PlayerAgg) (acc : List Nat),
      pid ∈ ps.foldl (fun acc p =>
          acc ++ (p.bracket_ranks.filter (fun er => er.2 == r)).map (fun _ => p.pid)) acc
        ↔ pid ∈ acc ∨ ∃ p ∈ ps, p.pid = pid ∧ ∃ er ∈ p.bracket_ranks, er.2 = r := by
  intro ps
  induction ps with
  | nil => intro acc; simp
  | cons p rps ih =>
    intro acc
    rw [List.foldl_cons, ih]
    constructor
    · rintro (h | h)
      · rcases List.mem_append.mp h with h | h
        · exact Or.inl h
        · rcases List.mem_map.mp h with ⟨er, her, hpe⟩
          have her2 := List.mem_filter.mp her
          exact Or.inr ⟨p, List.mem_cons_self _ _, hpe, er, her2.1, by simpa using her2.2⟩
      · rcases h with ⟨q, hq, hqpid, er, her, herr⟩
        exact Or.inr ⟨q, List.mem_cons_of_mem _ hq, hqpid, er, her, herr⟩
    · rintro (h | ⟨q, hq, hqpid, er, her, herr⟩)
      · exact Or.inl (List.mem_append.mpr (Or.inl h))
      · rcases List.mem_cons.mp hq with rfl | hq2
        · refine Or.inl (List.mem_append.mpr (Or.inr ?_))
          exact List.mem_map.mpr ⟨er, List.mem_filter.mpr ⟨her, by simpa using herr⟩, hqpid⟩
        · exact Or.inr ⟨q, hq2, hqpid, er, her, herr⟩

theorem mem_rawRankOccurrences (ps : List PlayerAgg) (r : Nat) (pid : Nat) :
    pid ∈ rawRankOccurrences ps r
      ↔ ∃ p ∈ ps, p.pid = pid ∧ ∃ er ∈ p.bracket_ranks, er.2 = r := by
  unfold rawRankOccurrences
  rw [mem_rawRankOccurrences_aux r pid ps []]
  simp

theorem insertOrd_pairwise {α : Type} (geq : α → α → Bool)
    (htot : ∀ a b, geq a b = false → geq b a = true)
    (htrans : ∀ a b c, geq a b = true → geq b c = true → geq a c = true)
    (x : α) (l : List α) (hl : l.Pairwise (fun a b => geq a b = true)) :
    (insertOrd geq x l).Pairwise (fun a b => geq a b = true) := by
  induction l with
  | nil => simp [insertOrd]
  | cons y ys ih =>
    rcases List.pairwise_cons.mp hl with ⟨hy, hys⟩
    simp only [insertOrd]
    by_cases hxy : geq x y = true
    · rw [if_pos hxy]
      refine List.pairwise_cons.mpr ⟨?_, hl⟩
      intro z hz
      rcases List.mem_cons.mp hz with rfl | hz2
      · exact hxy
      · exact htrans x y z hxy (hy z hz2)
    · rw [if_neg hxy]
      refine List.pairwise_cons.mpr ⟨?_, ih hys⟩
      intro z hz
      rcases List.mem_cons.mp ((insertOrd_perm geq x ys).mem_iff.mp hz) with heq | hz2
      · rw [heq]
        exact htot x y (by simpa using hxy)
      · exact hy z hz2

theorem sortOrd_pairwise {α : Type} (geq : α → α → Bool)
    (htot : ∀ a b, geq a b = false → geq b a = true)
    (htrans : ∀ a b c, geq a b = true → geq b c = true → geq a c = true) :
    ∀ l : List α, (sortOrd geq l).Pairwise (fun a b => geq a b = true) := by
  intro l
  induction l with
  | nil => simp [sortOrd]
  | cons x xs ih =>
    simp only [sortOrd, List.foldr_cons] at *
    exact insertOrd_pairwise geq htot htrans x _ ih

theorem winnersStage_ranks (w1 w2 : Nat) (rest : List Nat)
    (hnd : (w1 :: w2 :: rest).Nodup) :
    (winnersStage (w1 :: w2 :: rest)).ranks
      = [(w1, RankVal.num 1), (w2, RankVal.num 2)]
        ++ rest.map (fun pid => (pid, RankVal.tie 3)) := by
  have hw1r : w1 ∉ rest := by
    have h := (List.nodup_cons.mp hnd).1
    exact fun hh => h (List.mem_cons_of_mem _ hh)
  have hw2r : w2 ∉ rest := (List.nodup_cons.mp (List.nodup_cons.mp hnd).2).1
  have hfil : (w1 :: w2 :: rest).filter
      (fun pid => !((([w1] : List Nat) ++ [w2]).contains pid)) = rest := by
    rw [List.filter_cons_of_neg (by simp), List.filter_cons_of_neg (by simp)]
    rw [List.filter_eq_self]
    intro a ha
    have ha1 : ¬(a = w1) := fun hh => hw1r (hh ▸ ha)
    have ha2 : ¬(a = w2) := fun hh => hw2r (hh ▸ ha)
    simp [ha1, ha2]
  simp only [winnersStage]
  rw [hfil]
  cases rest with
  | nil => simp
  | cons r rs => simp

theorem rank2Stage_ranks_extends (ps : List PlayerAgg) (nb : Nat) (s : RankAccum) :
    ∃ t, (rank2Stage ps nb s).ranks = s.ranks ++ t := by
  by_cases h : ((dedupFirst (rawRankOccurrences ps 2)).filter
      (fun pid => !(s.assigned.contains pid))).isEmpty
  · refine ⟨[], ?_⟩
    simp only [rank2Stage]
    rw [if_pos h]
    simp
  · simp only [rank2Stage]
    rw [if_neg h]
    exact ⟨_, rfl⟩

theorem higherRankStep_ranks_extends (ps : List PlayerAgg) (s : RankAccum) (r : Nat) :
    ∃ t, (higherRankStep ps s r).ranks = s.ranks ++ t := by
  by_cases h1 : ((dedupFirst (rawRankOccurrences ps r)).filter
      (fun pid => !(s.assigned.contains pid))).isEmpty
  · refine ⟨[], ?_⟩
    simp only [higherRankStep]
    rw [if_pos h1]
    simp
  · by_cases h2 : (sortOrd (pprWinPctGe ps) ((dedupFirst (rawRankOccurrences ps r)).filter
        (fun pid => !(s.assigned.contains pid)))).length > 1
    · simp only [higherRankStep]
      rw [if_neg h1, if_pos h2]
      exact ⟨_, rfl⟩
    · cases hrp : sortOrd (pprWinPctGe ps) ((dedupFirst (rawRankOccurrences ps r)).filter
          (fun pid => !(s.assigned.contains pid))) with
      | nil =>
        refine ⟨[], ?_⟩
        simp only [higherRankStep]
        rw [if_neg h1, if_neg h2, hrp]
        simp
      | cons a tl =>
        cases tl with
        | nil =>
          refine ⟨[(a, RankVal.num s.overall_rank)], ?_⟩
          simp only [higherRankStep]
          rw [if_neg h1, if_neg h2, hrp]
        | cons b tl2 =>
          refine ⟨[], ?_⟩
          simp only [higherRankStep]
          rw [if_neg h1, if_neg h2, hrp]
          simp

theorem foldl_higherRankStep_ranks_extends (ps : List PlayerAgg) (l : List Nat) :
    ∀ s : RankAccum, ∃ t, (l.foldl (higherRankStep ps) s).ranks = s.ranks ++ t := by
  induction l with
  | nil =>
    intro s
    exact ⟨[], by simp⟩
  | cons r rl ih =>
    intro s
    rw [List.foldl_cons]
    rcases higherRankStep_ranks_extends ps s r with ⟨t1, ht1⟩
    rcases ih (higherRankStep ps s r) with ⟨t2, ht2⟩
    exact ⟨t1 ++ t2, by rw [ht2, ht1, List.append_assoc]⟩

theorem higherStage_ranks_extends (ps : List PlayerAgg) (s : RankAccum) :
    ∃ t, (higherStage ps s).ranks = s.ranks ++ t := by
  unfold higherStage
  exact foldl_higherRankStep_ranks_extends ps _ s

theorem remainingStage_ranks_extends (ps : List PlayerAgg) (s : RankAccum) :
    ∃ t, (remainingStage ps s).ranks = s.ranks ++ t := by
  by_cases h : ((ps.map (·.pid)).filter (fun pid => !(s.assigned.contains pid))).isEmpty
  · refine ⟨[], ?_⟩
    simp only [remainingStage]
    rw [if_pos h]
    simp
  · simp only [remainingStage]
    rw [if_neg h]
    exact ⟨_, rfl⟩

theorem find?_pair_of_mem (rest : List Nat) (w : Nat) (v : RankVal) (hw : w ∈ rest) :
    (rest.map (fun pid => (pid, v))).find? (fun e => e.1 == w) = some (w, v) := by
  induction rest with
  | nil => cases hw
  | cons x xs ih =>
    by_cases hx : x = w
    · subst hx
      rw [List.map_cons, List.find?_cons_of_pos _ (by simp)]
    · rcases List.mem_cons.mp hw with rfl | hw2
      · exact absurd rfl hx
      · rw [List.map_cons, List.find?_cons_of_neg _ (by simp [hx])]
        exact ih hw2

theorem overallRanks_winner_assignment (ps : List PlayerAgg) (nb : Nat) (w1 w2 : Nat)
    (rest : List Nat) (hw : bracketWinnersSorted ps = w1 :: w2 :: rest) :
    overallRankOf ps nb w1 = RankVal.num 1
    ∧ overallRankOf ps nb w2 = RankVal.num 2
    ∧ ∀ w ∈ rest, overallRankOf ps nb w = RankVal.tie 3 := by
  have hnd : (w1 :: w2 :: rest).Nodup := by
    rw [← hw]
    unfold bracketWinnersSorted
    exact ((sortOrd_perm _ _).nodup_iff).mpr (dedupFirst_nodup _)
  obtain ⟨t, ht⟩ : ∃ t, overallRanks ps nb
      = (winnersStage (bracketWinnersSorted ps)).ranks ++ t := by
    rcases rank2Stage_ranks_extends ps nb (winnersStage (bracketWinnersSorted ps)) with ⟨t1, h1⟩
    rcases higherStage_ranks_extends ps
      (rank2Stage ps nb (winnersStage (bracketWinnersSorted ps))) with ⟨t2, h2⟩
    rcases remainingStage_ranks_extends ps
      (higherStage ps (rank2Stage ps nb (winnersStage (bracketWinnersSorted ps)))) with ⟨t3, h3⟩
    refine ⟨t1 ++ (t2 ++ t3), ?_⟩
    unfold overallRanks
    rw [h3, h2, h1, List.append_assoc, List.append_assoc]
  rw [hw, winnersStage_ranks w1 w2 rest hnd] at ht
  have hne : w1 ≠ w2 := by
    have h := (List.nodup_cons.mp hnd).1
    exact fun hh => h (hh ▸ List.mem_cons_self _ _)
  have hw1r : w1 ∉ rest := by
    have h := (List.nodup_cons.mp hnd).1
    exact fun hh => h (List.mem_cons_of_mem _ hh)
  have hw2r : w2 ∉ rest := (List.nodup_cons.mp (List.nodup_cons.mp hnd).2).1
  refine ⟨?_, ?_, ?_⟩
  · unfold overallRankOf
    rw [ht]
    simp only [List.cons_append, List.nil_append]
    rw [List.find?_cons_of_pos _ (by simp)]
  · unfold overallRankOf
    rw [ht]
    simp only [List.cons_append, List.nil_append]
    rw [List.find?_cons_of_neg _ (by simp [hne]), List.find?_cons_of_pos _ (by simp)]
  · intro w hwr
    have hww1 : ¬(w1 = w) := fun hh => hw1r (hh ▸ hwr)
    have hww2 : ¬(w2 = w) := fun hh => hw2r (hh ▸ hwr)
    unfold overallRankOf
    rw [ht]
    simp only [List.cons_append, List.nil_append]
    rw [List.find?_cons_of_neg _ (by simp [hww1]), List.find?_cons_of_neg _ (by simp [hww2]),
      List.find?_append, find?_pair_of_mem rest w (RankVal.tie 3) hwr, Option.or_some]

theorem sortOrd_four {α : Type} (geq : α → α → Bool) (a b c d : α)
    (hab : geq a b = true) (hbc : geq b c = true) (hcd : geq c d = true) :
    sortOrd geq [a, b, c, d] = [a, b, c, d] := by
  simp [sortOrd, insertOrd, hab, hbc, hcd]

theorem sortOrd_four_swap {α : Type} (geq : α → α → Bool) (a b c d : α)
    (hab : geq a b = true) (hbd : geq b d = true) (hcd : geq c d = false) :
    sortOrd geq [a, b, c, d] = [a, b, d, c] := by
  simp [sortOrd, insertOrd, hab, hbd, hcd]

/-- C1: cross-bracket ranking of a singles group, for every group. (i) The
bracket-winner list is a permutation of the deduplicated final-rank-1
occurrence list, and a player is in it exactly when some aggregate of the
group gives that player a bracket entry with final rank 1; (ii) the winner
list is sorted by PPR descending; (iii) whenever the sorted winner list has
at least two entries, its head gets overall rank 1, its second element rank
2, and every remaining winner the tied rank T-3; (iv) in particular, in the
synthetic 4-bracket group with four distinct winners, for any PPR values
with a strict best and second-best, the two best winners get ranks 1 and 2
and the other two T-3. -/
theorem C1_cross_bracket_ranking (ps : List PlayerAgg) (num_brackets : Nat) :
    ((bracketWinnersSorted ps).Perm (dedupFirst (rawRankOccurrences ps 1))
      ∧ ∀ pid : Nat, (pid ∈ bracketWinnersSorted ps ↔
          ∃ p ∈ ps, p.pid = pid ∧ ∃ er ∈ p.bracket_ranks, er.2 = 1))
    ∧ (bracketWinnersSorted ps).Pairwise (fun a b => pprOfPid ps b ≤ pprOfPid ps a)
    ∧ (∀ (w1 w2 : Nat) (rest : List Nat), bracketWinnersSorted ps = w1 :: w2 :: rest →
        overallRankOf ps num_brackets w1 = RankVal.num 1
        ∧ overallRankOf ps num_brackets w2 = RankVal.num 2
        ∧ ∀ w ∈ rest, overallRankOf ps num_brackets w = RankVal.tie 3)
    ∧ (∀ q1 q2 q3 q4 : Int, (q2 : ℚ) < (q1 : ℚ) → (q3 : ℚ) < (q2 : ℚ) → (q4 : ℚ) < (q2 : ℚ) →
        overallRankOf (syntheticWinners q1 q2 q3 q4) 4 1 = RankVal.num 1
        ∧ overallRankOf (syntheticWinners q1 q2 q3 q4) 4 2 = RankVal.num 2
        ∧ overallRankOf (syntheticWinners q1 q2 q3 q4) 4 3 = RankVal.tie 3
        ∧ overallRankOf (syntheticWinners q1 q2 q3 q4) 4 4 = RankVal.tie 3) := by
  refine ⟨⟨?_, ?_⟩, ?_, ?_, ?_⟩
  · unfold bracketWinnersSorted
    exact sortOrd_perm _ _
  · intro pid
    unfold bracketWinnersSorted
    rw [(sortOrd_perm _ _).mem_iff, dedupFirst_mem, mem_rawRankOccurrences]
  · have h := sortOrd_pairwise (fun a b => decide (pprOfPid ps b ≤ pprOfPid ps a))
      (fun a b hab => decide_eq_true (le_of_not_le (of_decide_eq_false hab)))
      (fun a b c hab hbc => decide_eq_true
        (le_trans (of_decide_eq_true hbc) (of_decide_eq_true hab)))
      (dedupFirst (rawRankOccurrences ps 1))
    unfold bracketWinnersSorted
    exact h.imp (fun hx => of_decide_eq_true hx)
  · intro w1 w2 rest hw
    exact overallRanks_winner_assignment ps num_brackets w1 w2 rest hw
  · intro q1 q2 q3 q4 h12 h23 h24
    have hp1 : pprOfPid (syntheticWinners q1 q2 q3 q4) 1 = (q1 : ℚ) := by
      simp [pprOfPid, syntheticWinners, pprOf, List.find?]
    have hp2 : pprOfPid (syntheticWinners q1 q2 q3 q4) 2 = (q2 : ℚ) := by
      simp [pprOfPid, syntheticWinners, pprOf, List.find?]
    have hp3 : pprOfPid (syntheticWinners q1 q2 q3 q4) 3 = (q3 : ℚ) := by
      simp [pprOfPid, syntheticWinners, pprOf, List.find?]
    have hp4 : pprOfPid (syntheticWinners q1 q2 q3 q4) 4 = (q4 : ℚ) := by
      simp [pprOfPid, syntheticWinners, pprOf, List.find?]
    have hraw : dedupFirst (rawRankOccurrences (syntheticWinners q1 q2 q3 q4) 1)
        = [1, 2, 3, 4] := rfl
    have k12 : (fun a b => decide (pprOfPid (syntheticWinners q1 q2 q3 q4) b
          ≤ pprOfPid (syntheticWinners q1 q2 q3 q4) a)) 1 2 = true := by
      show decide (pprOfPid (syntheticWinners q1 q2 q3 q4) 2
          ≤ pprOfPid (syntheticWinners q1 q2 q3 q4) 1) = true
      rw [hp1, hp2]
      exact decide_eq_true h12.le
    have k23 : (fun a b => decide (pprOfPid (syntheticWinners q1 q2 q3 q4) b
          ≤ pprOfPid (syntheticWinners q1 q2 q3 q4) a)) 2 3 = true := by
      show decide (pprOfPid (syntheticWinners q1 q2 q3 q4) 3
          ≤ pprOfPid (syntheticWinners q1 q2 q3 q4) 2) = true
      rw [hp2, hp3]
      exact decide_eq_true h23.le
    have k24 : (fun a b => decide (pprOfPid (syntheticWinners q1 q2 q3 q4) b
          ≤ pprOfPid (syntheticWinners q1 q2 q3 q4) a)) 2 4 = true := by
      show decide (pprOfPid (syntheticWinners q1 q2 q3 q4) 4
          ≤ pprOfPid (syntheticWinners q1 q2 q3 q4) 2) = true
      rw [hp2, hp4]
      exact decide_eq_true h24.le
    rcases le_or_lt (q4 : ℚ) (q3 : ℚ) with c34 | c34
    · have k34 : (fun a b => decide (pprOfPid (syntheticWinners q1 q2 q3 q4) b
            ≤ pprOfPid (syntheticWinners q1 q2 q3 q4) a)) 3 4 = true := by
        show decide (pprOfPid (syntheticWinners q1 q2 q3 q4) 4
            ≤ pprOfPid (syntheticWinners q1 q2 q3 q4) 3) = true
        rw [hp3, hp4]
        exact decide_eq_true c34
      have hw : bracketWinnersSorted (syntheticWinners q1 q2 q3 q4) = [1, 2, 3, 4] := by
        unfold bracketWinnersSorted
        rw [hraw]
        exact sortOrd_four _ 1 2 3 4 k12 k23 k34
      have hrank : overallRanks (syntheticWinners q1 q2 q3 q4) 4
          = [(1, RankVal.num 1), (2, RankVal.num 2), (3, RankVal.tie 3), (4, RankVal.tie 3)] := by
        unfold overallRanks
        rw [hw]
        rfl
      refine ⟨?_, ?_, ?_, ?_⟩ <;> (unfold overallRankOf; rw [hrank]; rfl)
    · have k34 : (fun a b => decide (pprOfPid (syntheticWinners q1 q2 q3 q4) b
            ≤ pprOfPid (syntheticWinners q1 q2 q3 q4) a)) 3 4 = false := by
        show decide (pprOfPid (syntheticWinners q1 q2 q3 q4) 4
            ≤ pprOfPid (syntheticWinners q1 q2 q3 q4) 3) = false
        rw [hp3, hp4]
        exact decide_eq_false (not_le.mpr c34)
      have hw : bracketWinnersSorted (syntheticWinners q1 q2 q3 q4) = [1, 2, 4, 3] := by
        unfold bracketWinnersSorted
        rw [hraw]
        exact sortOrd_four_swap _ 1 2 3 4 k12 k24 k34
      have hrank : overallRanks (syntheticWinners q1 q2 q3 q4) 4
          = [(1, RankVal.num 1), (2, RankVal.num 2), (4, RankVal.tie 3), (3, RankVal.tie 3)] := by
        unfold overallRanks
        rw [hw]
        rfl
      refine ⟨?_, ?_, ?_, ?_⟩ <;> (unfold overallRankOf; rw [hrank]; rfl)

/-- C1 witness: the concrete group with winner PPRs 4 > 3 > 2 > 1; the
sorted winner list is [1, 2, 3, 4], the assignment clause is instantiated
on it and the synthetic clause at those PPR values. -/
theorem C1_cross_bracket_ranking_witness :
    ((bracketWinnersSorted (syntheticWinners 4 3 2 1) = 1 :: 2 :: [3, 4]
        ∧ ((3 : ℚ) < 4 ∧ (2 : ℚ) < 3 ∧ (1 : ℚ) < 3))
      ∧ overallRankOf (syntheticWinners 4 3 2 1) 4 1 = RankVal.num 1)
    ∧ overallRankOf (syntheticWinners 4 3 2 1) 4 2 = RankVal.num 2
    ∧ overallRankOf (syntheticWinners 4 3 2 1) 4 3 = RankVal.tie 3
    ∧ overallRankOf (syntheticWinners 4 3 2 1) 4 4 = RankVal.tie 3 := by
  have hp1 : pprOfPid (syntheticWinners 4 3 2 1) 1 = (4 : ℚ) := by
    simp [pprOfPid, syntheticWinners, pprOf, List.find?]
  have hp2 : pprOfPid (syntheticWinners 4 3 2 1) 2 = (3 : ℚ) := by
    simp [pprOfPid, syntheticWinners, pprOf, List.find?]
  have hp3 : pprOfPid (syntheticWinners 4 3 2 1) 3 = (2 : ℚ) := by
    simp [pprOfPid, syntheticWinners, pprOf, List.find?]
  have hp4 : pprOfPid (syntheticWinners 4 3 2 1) 4 = (1 : ℚ) := by
    simp [pprOfPid, syntheticWinners, pprOf, List.find?]
  have k12 : (fun a b => decide (pprOfPid (syntheticWinners 4 3 2 1) b
        ≤ pprOfPid (syntheticWinners 4 3 2 1) a)) 1 2 = true := by
    show decide (pprOfPid (syntheticWinners 4 3 2 1) 2
        ≤ pprOfPid (syntheticWinners 4 3 2 1) 1) = true
    rw [hp1, hp2]
    exact decide_eq_true (by norm_num)
  have k23 : (fun a b => decide (pprOfPid (syntheticWinners 4 3 2 1) b
        ≤ pprOfPid (syntheticWinners 4 3 2 1) a)) 2 3 = true := by
    show decide (pprOfPid (syntheticWinners 4 3 2 1) 3
        ≤ pprOfPid (syntheticWinners 4 3 2 1) 2) = true
    rw [hp2, hp3]
    exact decide_eq_true (by norm_num)
  have k34 : (fun a b => decide (pprOfPid (syntheticWinners 4 3 2 1) b
        ≤ pprOfPid (syntheticWinners 4 3 2 1) a)) 3 4 = true := by
    show decide (pprOfPid (syntheticWinners 4 3 2 1) 4
        ≤ pprOfPid (syntheticWinners 4 3 2 1) 3) = true
    rw [hp3, hp4]
    exact decide_eq_true (by norm_num)
  have hw : bracketWinnersSorted (syntheticWinners 4 3 2 1) = 1 :: 2 :: [3, 4] := by
    unfold bracketWinnersSorted
    rw [show dedupFirst (rawRankOccurrences (syntheticWinners 4 3 2 1) 1)
      = [1, 2, 3, 4] from rfl]
    exact sortOrd_four _ 1 2 3 4 k12 k23 k34
  have hasn := (C1_cross_bracket_ranking (syntheticWinners 4 3 2 1) 4).2.2.1 1 2 [3, 4] hw
  have hsyn := (C1_cross_bracket_ranking (syntheticWinners 4 3 2 1) 4).2.2.2 4 3 2 1
    (by norm_num) (by norm_num) (by norm_num)
  exact ⟨⟨⟨hw, by norm_num, by norm_num, by norm_num⟩, hasn.1⟩,
    hsyn.2.1, hsyn.2.2.1, hsyn.2.2.2⟩

end Cornhole
